import Mathlib

/-!
KnapsackProblem: a genetic-algorithm solver for 0/1 knapsack.

A shallow embedding of `knapsack_solver.cpp` (class `KnapsackSolver`) and
theorems about it.

Modelling conventions.

* `std::vector<T>` is `List T`; `size_t` is `Nat` with every addition reduced
  modulo `SIZE_MOD = 2 ^ 64`, the wrap-around of unsigned arithmetic.
* A read or write outside a vector, and the dereference of an end iterator,
  are undefined behaviour in the source; the embedding returns `none` there.
* `float` values are rational numbers: the only float operation of the
  source is the comparison `random_chance(rng) < mutation_rate_`, which is
  exact on finite floats.
* The random engine `rng` is an oracle `Rng`: the answer of the `k`-th
  distribution call of a run, for each of the three distributions the source
  uses, within the range the C++ standard gives that distribution.  The
  solver state records how many calls were made so far.
-/

namespace Knapsack

/-! ## Data model -/

/-- Exclusive upper bound of `size_t` (64-bit). -/
def SIZE_MOD : Nat := 2 ^ 64

/-- Type alias `chromosome_t = vector<bool>`. -/
abbrev chromosome_t := List Bool

/-- Type alias `population_t = vector<chromosome_t>`. -/
abbrev population_t := List chromosome_t

/-- Record `struct Solution`. -/
structure Solution where
  chromosome : chromosome_t
  fitness : Nat
  deriving DecidableEq, Repr

/-- Record `struct Item`. -/
structure Item where
  weight : Nat
  value : Nat
  deriving DecidableEq, Repr

/-- Oracle for `std::default_random_engine` seen through the distributions
of the source: `bernoulli k` answers `coin_flip(rng)`, `uniform_int k hi`
answers a `uniform_int_distribution<size_t>{0, hi}` and `uniform_real k`
answers `uniform_real_distribution<float>{}` when it is the `k`-th draw of
the run.  The fields after them are the ranges of those distributions. -/
structure Rng where
  bernoulli : Nat → Bool
  uniform_int : Nat → Nat → Nat
  uniform_real : Nat → ℚ
  uniform_int_le : ∀ k hi, uniform_int k hi ≤ hi
  uniform_real_nonneg : ∀ k, 0 ≤ uniform_real k
  uniform_real_lt_one : ∀ k, uniform_real k < 1

/-- Fields of `class KnapsackSolver`; `rng` is the number of draws made. -/
structure KnapsackSolver where
  items_ : List Item
  capacity_ : Nat
  population_ : population_t
  iterations_ : Nat
  mutation_rate_ : ℚ
  solution_ : Solution
  rng : Nat

/-- Constructor `KnapsackSolver::KnapsackSolver`: `population_size` empty
chromosomes, and the solution `{chromosome_t(items_.size(), {}), 0}`. -/
def KnapsackSolver.construct (items : List Item) (capacity population_size iterations : Nat)
    (mutation_rate : ℚ) : KnapsackSolver :=
  { items_ := items
    capacity_ := capacity
    population_ := List.replicate population_size []
    iterations_ := iterations
    mutation_rate_ := mutation_rate
    solution_ := ⟨List.replicate items.length false, 0⟩
    rng := 0 }

/-! ## `evaluate` -/

/-- Loop of `KnapsackSolver::evaluate` from item index `i` on, with the
running `weight` and `value`; `osobnik[&item - items_.data()]` is
`osobnik[i]`. -/
def evaluateFrom (capacity : Nat) (osobnik : chromosome_t) :
    List Item → Nat → Nat → Nat → Option Nat
  | [], _, _, value => some value
  | item :: rest, i, weight, value =>
    match osobnik[i]? with
    | none => none
    | some false => evaluateFrom capacity osobnik rest (i + 1) weight value
    | some true =>
      let weight := (weight + item.weight) % SIZE_MOD
      let value := (value + item.value) % SIZE_MOD
      if weight > capacity then some 0
      else evaluateFrom capacity osobnik rest (i + 1) weight value

/-- Method `KnapsackSolver::evaluate`. -/
def evaluate (items : List Item) (capacity : Nat) (osobnik : chromosome_t) : Option Nat :=
  evaluateFrom capacity osobnik items 0 0 0

/-- Sum of the weights of the items whose gene is true. -/
def includedWeight : List Item → chromosome_t → Nat
  | item :: items, gene :: genes =>
    (if gene then item.weight else 0) + includedWeight items genes
  | _, _ => 0

/-- Sum of the values of the items whose gene is true. -/
def includedValue : List Item → chromosome_t → Nat
  | item :: items, gene :: genes =>
    (if gene then item.value else 0) + includedValue items genes
  | _, _ => 0

/-! ## `select` -/

/-- Scan of `find_if` in `KnapsackSolver::select` with the lambda's mutable
`offset`: the index of the first scanned fitness at which
`pick < (offset += fitness)` holds, or the index of the end of the scanned
range when there is none.  `i` is the index of the head of the range. -/
def find_if_pick (pick : Nat) : List Nat → Nat → Nat → Nat
  | [], _, i => i
  | fitness :: rest, offset, i =>
    let offset := (offset + fitness) % SIZE_MOD
    if pick < offset then i else find_if_pick pick rest offset (i + 1)

/-- Body of `KnapsackSolver::select` after the draw `pick = random_value(rng)`:
the scanned range is `[cbegin(fitnesses), cend(fitnesses) - 1)`, which does
not exist for an empty vector. -/
def select_pick (population : population_t) (fitnesses : List Nat) (pick : Nat) :
    Option chromosome_t :=
  match fitnesses with
  | [] => none
  | _ :: _ => population[find_if_pick pick fitnesses.dropLast 0 0]?

/-- Method `KnapsackSolver::select`, drawing from `{0, max}` as draw `k`. -/
def select (g : Rng) (population : population_t) (fitnesses : List Nat) (max k : Nat) :
    Option chromosome_t :=
  select_pick population fitnesses (g.uniform_int k max)

/-! ## `mutate` -/

/-- Method `KnapsackSolver::mutate`, one draw per gene starting at draw `k`;
returns the mutated chromosome and the next draw number. -/
def mutate (mutation_rate : ℚ) (g : Rng) : chromosome_t → Nat → chromosome_t × Nat
  | [], k => ([], k)
  | has_item :: rest, k =>
    let has_item := if g.uniform_real k < mutation_rate then !has_item else has_item
    let tail := mutate mutation_rate g rest (k + 1)
    (has_item :: tail.1, tail.2)

/-! ## `crossover` -/

/-- Element-wise `std::copy` of `src` into `dst` from position `pos` on;
`none` when a write falls outside `dst`. -/
def copy_to : List Bool → List Bool → Nat → Option (List Bool)
  | [], dst, _ => some dst
  | x :: xs, dst, pos =>
    if pos < dst.length then copy_to xs (dst.set pos x) (pos + 1) else none

/-- Body of `KnapsackSolver::crossover` after the draw `slice`:
`copy_n(begin(chromosome_1), slice, begin(new_chromosome))` followed by
`copy(begin(chromosome_2) + slice, end(chromosome_2), ...)`. -/
def crossover_at (item_count : Nat) (chromosome_1 chromosome_2 : chromosome_t)
    (slice : Nat) : Option chromosome_t :=
  let new_chromosome := List.replicate item_count false
  if slice ≤ chromosome_1.length then
    match copy_to (chromosome_1.take slice) new_chromosome 0 with
    | none => none
    | some left =>
      if slice ≤ chromosome_2.length then copy_to (chromosome_2.drop slice) left slice
      else none
  else none

/-- Method `KnapsackSolver::crossover`, drawing the slice point from
`{0, items_.size()}` as draw `k`. -/
def crossover (g : Rng) (item_count : Nat) (chromosome_1 chromosome_2 : chromosome_t)
    (k : Nat) : Option chromosome_t :=
  crossover_at item_count chromosome_1 chromosome_2 (g.uniform_int k item_count)

/-! ## `generate_chromosome` -/

/-- Method `KnapsackSolver::generate_chromosome`: `item_count` coin flips
starting at draw `k`; returns the chromosome and the next draw number. -/
def generate_chromosome (g : Rng) : Nat → Nat → chromosome_t × Nat
  | 0, k => ([], k)
  | item_count + 1, k =>
    let tail := generate_chromosome g item_count (k + 1)
    (g.bernoulli k :: tail.1, tail.2)

/-! ## `solve` -/

/-- The call `generate(begin(population_), end(population_), ...)` of `solve`
over `slots` population slots. -/
def generate_population (g : Rng) (item_count : Nat) : Nat → Nat → population_t × Nat
  | 0, k => ([], k)
  | slots + 1, k =>
    let first := generate_chromosome g item_count k
    let tail := generate_population g item_count slots first.2
    (first.1 :: tail.1, tail.2)

/-- The call `transform(cbegin(population_), cend(population_), ...)` of
`solve`: the fitness of every chromosome, in population order. -/
def transform_evaluate (items : List Item) (capacity : Nat) :
    population_t → Option (List Nat)
  | [] => some []
  | chromosome :: rest =>
    match evaluate items capacity chromosome with
    | none => none
    | some fitness =>
      match transform_evaluate items capacity rest with
      | none => none
      | some fitnesses => some (fitness :: fitnesses)

/-- Loop of `std::max_element`: `largest` is the index of the largest value
seen so far, `largest_value` that value, `i` the index of the head. -/
def max_element_from : List Nat → Nat → Nat → Nat → Nat
  | [], _, largest, _ => largest
  | x :: rest, i, largest, largest_value =>
    if largest_value < x then max_element_from rest (i + 1) i x
    else max_element_from rest (i + 1) largest largest_value

/-- Library call `std::max_element` as an index; `none` is the end iterator
the call returns for an empty range. -/
def max_element : List Nat → Option Nat
  | [] => none
  | x :: rest => some (max_element_from rest 1 0 x)

/-- The call `accumulate(cbegin(fitnesses), cend(fitnesses), size_t{})`. -/
def accumulate (fitnesses : List Nat) : Nat :=
  fitnesses.foldl (fun sum fitness => (sum + fitness) % SIZE_MOD) 0

/-- Lines 72-79 of `solve`: find the fittest chromosome and record it when
it is strictly fitter than the solution. -/
def update_solution (population : population_t) (fitnesses : List Nat)
    (solution : Solution) : Option Solution :=
  match max_element fitnesses with
  | none => none
  | some best =>
    match fitnesses[best]? with
    | none => none
    | some best_fitness =>
      if best_fitness > solution.fitness then
        match population[best]? with
        | none => none
        | some chromosome => some ⟨chromosome, best_fitness⟩
      else some solution

/-- The call `generate_n(back_inserter(new_population), count, ...)` of
`solve`: each child takes three draws, two selections and one slice point. -/
def breed (g : Rng) (item_count : Nat) (population : population_t)
    (fitnesses : List Nat) (fitness_sum : Nat) : Nat → Nat → Option (population_t × Nat)
  | 0, k => some ([], k)
  | count + 1, k =>
    match select g population fitnesses fitness_sum k with
    | none => none
    | some chromosome_1 =>
      match select g population fitnesses fitness_sum (k + 1) with
      | none => none
      | some chromosome_2 =>
        match crossover g item_count chromosome_1 chromosome_2 (k + 2) with
        | none => none
        | some child =>
          match breed g item_count population fitnesses fitness_sum count (k + 3) with
          | none => none
          | some (children, k2) => some (child :: children, k2)

/-- The loop `for (auto& chromosome : new_population) mutate(chromosome)`. -/
def mutate_all (mutation_rate : ℚ) (g : Rng) : population_t → Nat → population_t × Nat
  | [], k => ([], k)
  | chromosome :: rest, k =>
    let first := mutate mutation_rate g chromosome k
    let tail := mutate_all mutation_rate g rest first.2
    (first.1 :: tail.1, tail.2)

/-- One pass of the body of the `for` loop of `solve`.  The child count
`population_.size() - 1` is only reached with a non-empty population, the
dereference of `best` coming first. -/
def generation (g : Rng) (s : KnapsackSolver) : Option KnapsackSolver :=
  match transform_evaluate s.items_ s.capacity_ s.population_ with
  | none => none
  | some fitnesses =>
    match update_solution s.population_ fitnesses s.solution_ with
    | none => none
    | some solution =>
      let fitness_sum := accumulate fitnesses
      match breed g s.items_.length s.population_ fitnesses fitness_sum
          (s.population_.length - 1) s.rng with
      | none => none
      | some (children, k) =>
        let mutated := mutate_all s.mutation_rate_ g (solution.chromosome :: children) k
        some { s with population_ := mutated.1, solution_ := solution, rng := mutated.2 }

/-- First population of `solve`: every slot of `population_` regenerated. -/
def first_population (g : Rng) (s : KnapsackSolver) : KnapsackSolver :=
  let generated := generate_population g s.items_.length s.population_.length s.rng
  { s with population_ := generated.1, rng := generated.2 }

/-- The `for` loop of `solve` run for `count` passes. -/
def generations (g : Rng) : Nat → KnapsackSolver → Option KnapsackSolver
  | 0, s => some s
  | count + 1, s =>
    match generation g s with
    | none => none
    | some next => generations g count next

/-- Solver state after the first population and `count` generations. -/
def after_generation (g : Rng) (s : KnapsackSolver) (count : Nat) : Option KnapsackSolver :=
  generations g count (first_population g s)

/-- Method `KnapsackSolver::solve`: the solution after `iterations_` passes. -/
def solve (g : Rng) (s : KnapsackSolver) : Option Solution :=
  (after_generation g s s.iterations_).map (fun final => final.solution_)

/-- Generator answering `false`, `0` and `0` to every draw. -/
def zeroRng : Rng :=
  { bernoulli := fun _ => false
    uniform_int := fun _ _ => 0
    uniform_real := fun _ => 0
    uniform_int_le := fun _ _ => Nat.zero_le _
    uniform_real_nonneg := fun _ => le_refl 0
    uniform_real_lt_one := fun _ => by norm_num }

/-- Multiplicative-hash generator: draw `k` is derived from the bits of
`(seed + k) * 2654435761` above the low sixteen. -/
def lcgRng (seed : Nat) : Rng :=
  { bernoulli := fun k => ((seed + k) * 2654435761 / 65536) % 2 = 1
    uniform_int := fun k hi => ((seed + k) * 2654435761 / 65536) % (hi + 1)
    uniform_real := fun k => ((((seed + k) * 2654435761 / 65536) % 1024 : Nat) : ℚ) / 1024
    uniform_int_le := fun k hi => Nat.le_of_lt_succ (Nat.mod_lt _ (Nat.succ_pos hi))
    uniform_real_nonneg := fun k => by positivity
    uniform_real_lt_one := fun k => by
      rw [div_lt_one (by norm_num)]
      exact_mod_cast Nat.mod_lt _ (by norm_num) }

/-- Well-formedness of a solver state: `size` chromosomes, each as long as
the item list, and a solution chromosome as long as the item list. -/
def WellFormed (size : Nat) (s : KnapsackSolver) : Prop :=
  s.population_.length = size
    ∧ (∀ chromosome ∈ s.population_, chromosome.length = s.items_.length)
    ∧ s.solution_.chromosome.length = s.items_.length

instance (size : Nat) (s : KnapsackSolver) : Decidable (WellFormed size s) := by
  unfold WellFormed; infer_instance

/-! ## Reference notions the claims compare the solver with -/

/-- Every boolean vector of the given length, the candidate item subsets. -/
def all_chromosomes : Nat → List chromosome_t
  | 0 => [[]]
  | n + 1 => (all_chromosomes n).map (List.cons false) ++ (all_chromosomes n).map (List.cons true)

/-- Value of a subset in the 0/1 knapsack problem: the sum of the included
values when the included weights fit the capacity, and 0 otherwise, in
unbounded arithmetic. -/
def subset_value (items : List Item) (capacity : Nat) (chromosome : chromosome_t) : Nat :=
  if includedWeight items chromosome ≤ capacity then includedValue items chromosome else 0

/-- Brute-force optimum of the 0/1 knapsack instance: the largest total
value over all subsets of the items whose total weight is within capacity. -/
def brute_force_optimum (items : List Item) (capacity : Nat) : Nat :=
  ((all_chromosomes items.length).map (subset_value items capacity)).foldr Nat.max 0

/-- Population index `it - cbegin(fitnesses)` that `select` computes for the
draw `pick`. -/
def selected_index (fitnesses : List Nat) (pick : Nat) : Nat :=
  find_if_pick pick fitnesses.dropLast 0 0

/-- Number of draws in the closed range `[0, accumulate fitnesses]` of
`select` for which index `i` is selected. -/
def draws_selecting (fitnesses : List Nat) (i : Nat) : Nat :=
  ((List.range (accumulate fitnesses + 1)).filter
    (fun pick => selected_index fitnesses pick = i)).length

/-! ## Theorems -/

theorem evaluateFrom_cons (capacity : Nat) (gene : Bool) (genes : chromosome_t) :
    ∀ (items : List Item) (i weight value : Nat),
      evaluateFrom capacity (gene :: genes) items (i + 1) weight value
        = evaluateFrom capacity genes items i weight value := by
  intro items
  induction items with
  | nil => intro i weight value; simp [evaluateFrom]
  | cons item rest ih =>
    intro i weight value
    simp only [evaluateFrom, List.getElem?_cons_succ]
    cases genes[i]? with
    | none => rfl
    | some b =>
      cases b
      · simp only [ih]
      · simp only [ih]

theorem evaluateFrom_spec (capacity : Nat) :
    ∀ (items : List Item) (genes : chromosome_t) (weight value : Nat),
      genes.length = items.length → weight ≤ capacity → value < SIZE_MOD →
      weight + includedWeight items genes < SIZE_MOD →
      evaluateFrom capacity genes items 0 weight value
        = some (if weight + includedWeight items genes > capacity then 0
                else (value + includedValue items genes) % SIZE_MOD) := by
  intro items
  induction items with
  | nil =>
    intro genes weight value hlen hw hv _
    cases genes with
    | nil =>
      have : ¬ weight > capacity := by omega
      simp [evaluateFrom, includedWeight, includedValue, this, Nat.mod_eq_of_lt hv]
    | cons g gs => simp at hlen
  | cons item rest ih =>
    intro genes weight value hlen hw hv hsum
    cases genes with
    | nil => simp at hlen
    | cons g gs =>
      have hlen2 : gs.length = rest.length := by simpa using hlen
      cases g with
      | false =>
        simp only [evaluateFrom, List.getElem?_cons_zero, Nat.zero_add]
        rw [evaluateFrom_cons]
        have hsum2 : weight + includedWeight rest gs < SIZE_MOD := by
          simpa [includedWeight] using hsum
        rw [ih gs weight value hlen2 hw hv hsum2]
        simp [includedWeight, includedValue]
      | true =>
        have hsum2 : weight + item.weight + includedWeight rest gs < SIZE_MOD := by
          simpa [includedWeight, Nat.add_assoc] using hsum
        have hmod : (weight + item.weight) % SIZE_MOD = weight + item.weight :=
          Nat.mod_eq_of_lt (by omega)
        simp only [evaluateFrom, List.getElem?_cons_zero, Nat.zero_add, hmod]
        by_cases hgt : weight + item.weight > capacity
        · have : weight + includedWeight (item :: rest) (true :: gs) > capacity := by
            simp only [includedWeight, if_true]; omega
          simp [hgt, this]
        · rw [if_neg hgt, evaluateFrom_cons]
          rw [ih gs (weight + item.weight) ((value + item.value) % SIZE_MOD) hlen2
            (by omega) (Nat.mod_lt _ (by decide)) hsum2]
          simp only [includedWeight, includedValue, if_true, Nat.add_assoc,
            Nat.mod_add_mod]

theorem includedWeight_replicate_false :
    ∀ (items : List Item) (n : Nat), includedWeight items (List.replicate n false) = 0 := by
  intro items
  induction items with
  | nil => intro n; cases n <;> simp [includedWeight, List.replicate]
  | cons item rest ih =>
    intro n
    cases n with
    | zero => simp [includedWeight]
    | succ m => simp [includedWeight, List.replicate, ih]

theorem includedValue_replicate_false :
    ∀ (items : List Item) (n : Nat), includedValue items (List.replicate n false) = 0 := by
  intro items
  induction items with
  | nil => intro n; cases n <;> simp [includedValue, List.replicate]
  | cons item rest ih =>
    intro n
    cases n with
    | zero => simp [includedValue]
    | succ m => simp [includedValue, List.replicate, ih]

/-- C1, as the source behaves.  For a chromosome as long as the item list
whose included weights sum to less than `2 ^ 64`, `evaluate` returns 0 when
that sum exceeds the capacity and otherwise the sum of the included values
reduced modulo `2 ^ 64`; the all-false chromosome evaluates to 0 and its
included weight, 0, is within every capacity. -/
theorem evaluate_spec (items : List Item) (capacity : Nat) (osobnik : chromosome_t)
    (hlen : osobnik.length = items.length)
    (hweight : includedWeight items osobnik < SIZE_MOD) :
    evaluate items capacity osobnik
        = some (if includedWeight items osobnik > capacity then 0
                else includedValue items osobnik % SIZE_MOD)
      ∧ evaluate items capacity (List.replicate items.length false) = some 0
      ∧ includedWeight items (List.replicate items.length false) ≤ capacity := by
  have hpos : (0 : Nat) < SIZE_MOD := by decide
  refine ⟨?_, ?_, ?_⟩
  · have h := evaluateFrom_spec capacity items osobnik 0 0 hlen (Nat.zero_le _) hpos
      (by simpa using hweight)
    simpa [evaluate] using h
  · have h := evaluateFrom_spec capacity items (List.replicate items.length false) 0 0
      (by simp) (Nat.zero_le _) hpos
      (by simp [includedWeight_replicate_false]; exact hpos)
    simpa [evaluate, includedWeight_replicate_false, includedValue_replicate_false] using h
  · simp [includedWeight_replicate_false]

/-- Witness of `evaluate_spec` on the three-item instance of the specification. -/
theorem evaluate_spec_witness :
    ([true, true, false] : chromosome_t).length
        = [Item.mk 2 3, Item.mk 3 4, Item.mk 4 5].length
      ∧ includedWeight [Item.mk 2 3, Item.mk 3 4, Item.mk 4 5] [true, true, false] < SIZE_MOD
      ∧ (evaluate [Item.mk 2 3, Item.mk 3 4, Item.mk 4 5] 5 [true, true, false]
          = some (if includedWeight [Item.mk 2 3, Item.mk 3 4, Item.mk 4 5]
                      [true, true, false] > 5 then 0
                  else includedValue [Item.mk 2 3, Item.mk 3 4, Item.mk 4 5]
                      [true, true, false] % SIZE_MOD)
        ∧ evaluate [Item.mk 2 3, Item.mk 3 4, Item.mk 4 5] 5
            (List.replicate [Item.mk 2 3, Item.mk 3 4, Item.mk 4 5].length false) = some 0
        ∧ includedWeight [Item.mk 2 3, Item.mk 3 4, Item.mk 4 5]
            (List.replicate [Item.mk 2 3, Item.mk 3 4, Item.mk 4 5].length false) ≤ 5) :=
  ⟨by decide, by decide,
    evaluate_spec [Item.mk 2 3, Item.mk 3 4, Item.mk 4 5] 5 [true, true, false]
      (by decide) (by decide)⟩

/-- C1 as stated fails on the source: with capacity 10 and the items
`(5, 1)` and `(2 ^ 64 - 1, 1)` both included, the weights sum to
`2 ^ 64 + 4 > 10`, yet the running `size_t` weight wraps to 4 and `evaluate`
returns the value 2 instead of 0. -/
theorem evaluate_overflow_counterexample :
    ([true, true] : chromosome_t).length = [Item.mk 5 1, Item.mk (2 ^ 64 - 1) 1].length
      ∧ includedWeight [Item.mk 5 1, Item.mk (2 ^ 64 - 1) 1] [true, true] > 10
      ∧ evaluate [Item.mk 5 1, Item.mk (2 ^ 64 - 1) 1] 10 [true, true] = some 2
      ∧ evaluate [Item.mk 5 1, Item.mk (2 ^ 64 - 1) 1] 10 [true, true] ≠ some 0 := by
  refine ⟨by decide, by decide, ?_, ?_⟩
  · decide
  · decide

theorem copy_to_append :
    ∀ (src pre mid post : List Bool), mid.length = src.length →
      copy_to src (pre ++ mid ++ post) pre.length = some (pre ++ src ++ post) := by
  intro src
  induction src with
  | nil =>
    intro pre mid post hlen
    have : mid = [] := List.eq_nil_of_length_eq_zero (by simpa using hlen)
    simp [copy_to, this]
  | cons x xs ih =>
    intro pre mid post hlen
    cases mid with
    | nil => simp at hlen
    | cons m ms =>
      have hlen2 : ms.length = xs.length := by simpa using hlen
      have hlt : pre.length < (pre ++ m :: ms ++ post).length := by
        simp only [List.length_append, List.length_cons]; omega
      have hset : (pre ++ m :: ms ++ post).set pre.length x = (pre ++ [x]) ++ ms ++ post := by
        simp [List.append_assoc]
      have hpos : pre.length + 1 = (pre ++ [x]).length := by simp
      rw [copy_to, if_pos hlt, hset, hpos, ih (pre ++ [x]) ms post hlen2]
      simp [List.append_assoc]

theorem crossover_at_eq (item_count : Nat) (chromosome_1 chromosome_2 : chromosome_t)
    (slice : Nat) (h1 : chromosome_1.length = item_count)
    (h2 : chromosome_2.length = item_count) (hslice : slice ≤ item_count) :
    crossover_at item_count chromosome_1 chromosome_2 slice
      = some (chromosome_1.take slice ++ chromosome_2.drop slice) := by
  have hsplit : List.replicate item_count false
      = [] ++ List.replicate slice false ++ List.replicate (item_count - slice) false := by
    rw [List.nil_append, List.append_replicate_replicate]
    congr 1; omega
  have hfirst : copy_to (chromosome_1.take slice) (List.replicate item_count false) 0
      = some (chromosome_1.take slice ++ List.replicate (item_count - slice) false) := by
    have h := copy_to_append (chromosome_1.take slice) [] (List.replicate slice false)
      (List.replicate (item_count - slice) false)
      (by simp [List.length_take]; omega)
    rw [← hsplit] at h
    simpa using h
  have hsecond : copy_to (chromosome_2.drop slice)
      (chromosome_1.take slice ++ List.replicate (item_count - slice) false) slice
      = some (chromosome_1.take slice ++ chromosome_2.drop slice) := by
    have h := copy_to_append (chromosome_2.drop slice) (chromosome_1.take slice)
      (List.replicate (item_count - slice) false) []
      (by simp [List.length_drop]; omega)
    have hl : (chromosome_1.take slice).length = slice := by
      simp [List.length_take]; omega
    rw [hl] at h
    simpa using h
  unfold crossover_at
  simp only [h1, h2, hslice, if_true, hfirst, hsecond]

/-- C2.  For parents of length `n` (the item count) and a cut point
`c ≤ n`, `crossover` returns a child of length `n` whose genes below `c`
are those of the first parent and whose genes from `c` on are those of the
second; the cut 0 gives the second parent and the cut `n` the first. -/
theorem crossover_spec (n : Nat) (p1 p2 : chromosome_t) (c : Nat)
    (h1 : p1.length = n) (h2 : p2.length = n) (hc : c ≤ n) :
    ∃ child, crossover_at n p1 p2 c = some child
      ∧ child.length = n
      ∧ (∀ i, i < c → child[i]? = p1[i]?)
      ∧ (∀ i, c ≤ i → i < n → child[i]? = p2[i]?)
      ∧ crossover_at n p1 p2 0 = some p2
      ∧ crossover_at n p1 p2 n = some p1 := by
  have hlen_take : (p1.take c).length = c := by simp [List.length_take]; omega
  refine ⟨p1.take c ++ p2.drop c, crossover_at_eq n p1 p2 c h1 h2 hc, ?_, ?_, ?_, ?_, ?_⟩
  · simp [List.length_take, List.length_drop]; omega
  · intro i hi
    rw [List.getElem?_append_left (by omega), List.getElem?_take_of_lt hi]
  · intro i hci _
    rw [List.getElem?_append_right (by omega), hlen_take, List.getElem?_drop]
    congr 1; omega
  · rw [crossover_at_eq n p1 p2 0 h1 h2 (Nat.zero_le _)]; simp
  · rw [crossover_at_eq n p1 p2 n h1 h2 (Nat.le_refl _)]
    rw [List.take_of_length_le (by omega), List.drop_eq_nil_of_le (by omega),
      List.append_nil]

/-- Witness of `crossover_spec` with three genes and the cut point 1. -/
theorem crossover_spec_witness :
    ([true, true, false] : chromosome_t).length = 3
      ∧ ([false, false, true] : chromosome_t).length = 3 ∧ 1 ≤ 3
      ∧ ∃ child, crossover_at 3 [true, true, false] [false, false, true] 1 = some child
          ∧ child.length = 3
          ∧ (∀ i, i < 1 → child[i]? = ([true, true, false] : chromosome_t)[i]?)
          ∧ (∀ i, 1 ≤ i → i < 3 → child[i]? = ([false, false, true] : chromosome_t)[i]?)
          ∧ crossover_at 3 [true, true, false] [false, false, true] 0
              = some [false, false, true]
          ∧ crossover_at 3 [true, true, false] [false, false, true] 3
              = some [true, true, false] :=
  ⟨by decide, by decide, by decide,
    crossover_spec 3 [true, true, false] [false, false, true] 1 (by decide) (by decide)
      (by decide)⟩

theorem find_if_pick_spec (pick : Nat) :
    ∀ (xs : List Nat) (offset i : Nat),
      i ≤ find_if_pick pick xs offset i
      ∧ find_if_pick pick xs offset i ≤ i + xs.length
      ∧ (∀ j, j < find_if_pick pick xs offset i - i →
          ¬ pick < (offset + (xs.take (j + 1)).sum) % SIZE_MOD)
      ∧ (find_if_pick pick xs offset i < i + xs.length →
          pick < (offset + (xs.take (find_if_pick pick xs offset i - i + 1)).sum)
            % SIZE_MOD) := by
  intro xs
  induction xs with
  | nil =>
    intro offset i
    simp [find_if_pick]
  | cons x rest ih =>
    intro offset i
    by_cases hpick : pick < (offset + x) % SIZE_MOD
    · have hr : find_if_pick pick (x :: rest) offset i = i := by
        simp [find_if_pick, hpick]
      rw [hr]
      refine ⟨Nat.le_refl _, by omega, ?_, ?_⟩
      · intro j hj; omega
      · intro _; simpa using hpick
    · have hr : find_if_pick pick (x :: rest) offset i
          = find_if_pick pick rest ((offset + x) % SIZE_MOD) (i + 1) := by
        simp [find_if_pick, hpick]
      rw [hr]
      obtain ⟨h1, h2, h3, h4⟩ := ih ((offset + x) % SIZE_MOD) (i + 1)
      have hsum : ∀ m, ((offset + x) % SIZE_MOD + (rest.take m).sum) % SIZE_MOD
          = (offset + ((x :: rest).take (m + 1)).sum) % SIZE_MOD := by
        intro m
        rw [Nat.mod_add_mod, List.take_succ_cons, List.sum_cons, Nat.add_assoc]
      refine ⟨by omega, by simp only [List.length_cons]; omega, ?_, ?_⟩
      · intro j hj
        cases j with
        | zero => simpa using hpick
        | succ j2 =>
          rw [← hsum (j2 + 1)]
          exact h3 j2 (by omega)
      · intro hlt
        have hlt2 : find_if_pick pick rest ((offset + x) % SIZE_MOD) (i + 1)
            < i + 1 + rest.length := by
          simp only [List.length_cons] at hlt; omega
        have h := h4 hlt2
        rw [hsum] at h
        have hidx : find_if_pick pick rest ((offset + x) % SIZE_MOD) (i + 1) - (i + 1) + 1
            = find_if_pick pick rest ((offset + x) % SIZE_MOD) (i + 1) - i := by omega
        rw [hidx] at h
        exact h

theorem take_dropLast (xs : List Nat) (k : Nat) (hk : k ≤ xs.length - 1) :
    xs.dropLast.take k = xs.take k := by
  rw [List.dropLast_eq_take, List.take_take, Nat.min_eq_left hk]

theorem select_pick_eq_getElem? (population : population_t) (fitnesses : List Nat)
    (pick : Nat) (hne : fitnesses ≠ []) :
    select_pick population fitnesses pick
      = population[find_if_pick pick fitnesses.dropLast 0 0]? := by
  cases fitnesses with
  | nil => exact absurd rfl hne
  | cons f fs => rfl

theorem sum_take_le_sum (xs : List Nat) (k : Nat) : (xs.take k).sum ≤ xs.sum := by
  have h : (xs.take k).sum + (xs.drop k).sum = xs.sum := by
    rw [← List.sum_append, List.take_append_drop]
  omega

theorem find_if_pick_lt_length (population : population_t) (fitnesses : List Nat)
    (pick : Nat) (hne : population ≠ []) (hlen : fitnesses.length = population.length) :
    find_if_pick pick fitnesses.dropLast 0 0 < population.length := by
  have hpos : 0 < population.length := List.length_pos.mpr hne
  have h := (find_if_pick_spec pick fitnesses.dropLast 0 0).2.1
  simp only [List.length_dropLast] at h
  omega

theorem select_pick_some_mem (population : population_t) (fitnesses : List Nat)
    (pick : Nat) (hne : population ≠ []) (hlen : fitnesses.length = population.length) :
    ∃ chromosome, select_pick population fitnesses pick = some chromosome
      ∧ chromosome ∈ population := by
  have hfne : fitnesses ≠ [] := by
    intro h; rw [h] at hlen; exact hne (List.eq_nil_of_length_eq_zero hlen.symm)
  have hlt := find_if_pick_lt_length population fitnesses pick hne hlen
  refine ⟨population[find_if_pick pick fitnesses.dropLast 0 0], ?_, List.getElem_mem hlt⟩
  rw [select_pick_eq_getElem? population fitnesses pick hfne]
  exact List.getElem?_eq_getElem hlt

/-- C3.  For a non-empty population with a fitness vector of the same
length, `select` returns, for every draw value, a chromosome of the
population: the index it computes is a valid population index. -/
theorem select_mem_population (population : population_t) (fitnesses : List Nat)
    (pick : Nat) (hne : population ≠ []) (hlen : fitnesses.length = population.length) :
    ∃ i chromosome, i < population.length
      ∧ population[i]? = some chromosome
      ∧ select_pick population fitnesses pick = some chromosome
      ∧ chromosome ∈ population := by
  have hfne : fitnesses ≠ [] := by
    intro h; rw [h] at hlen; exact hne (List.eq_nil_of_length_eq_zero hlen.symm)
  have hlt := find_if_pick_lt_length population fitnesses pick hne hlen
  refine ⟨find_if_pick pick fitnesses.dropLast 0 0,
    population[find_if_pick pick fitnesses.dropLast 0 0], hlt, ?_, ?_, ?_⟩
  · exact List.getElem?_eq_getElem hlt
  · rw [select_pick_eq_getElem? population fitnesses pick hfne]
    exact List.getElem?_eq_getElem hlt
  · exact List.getElem_mem hlt

/-- Witness of `select_mem_population` on a population of two. -/
theorem select_mem_population_witness :
    ([[true], [false]] : population_t) ≠ []
      ∧ ([3, 4] : List Nat).length = ([[true], [false]] : population_t).length
      ∧ ∃ i chromosome, i < ([[true], [false]] : population_t).length
          ∧ ([[true], [false]] : population_t)[i]? = some chromosome
          ∧ select_pick [[true], [false]] [3, 4] 5 = some chromosome
          ∧ chromosome ∈ ([[true], [false]] : population_t) :=
  ⟨by decide, by decide,
    select_mem_population [[true], [false]] [3, 4] 5 (by decide) (by decide)⟩

/-- C4, as the source behaves.  For a non-empty population of size `n` with
fitnesses `f` and every draw `d`, `select` returns `population[i]` where `i`
is the smallest index below `n - 1` at which the running `size_t` offset
`(f[0] + ... + f[i]) mod 2 ^ 64` is strictly greater than `d`, and `i = n - 1`
when there is none; that offset is the plain sum when the scanned fitnesses
total less than `2 ^ 64`; and the result does not depend on the fitness of the
last element. -/
theorem select_pick_spec (population : population_t) (fitnesses : List Nat) (pick : Nat)
    (hne : population ≠ []) (hlen : fitnesses.length = population.length) :
    ∃ i, i ≤ population.length - 1
      ∧ select_pick population fitnesses pick = population[i]?
      ∧ (∀ j, j < i → ¬ pick < (fitnesses.take (j + 1)).sum % SIZE_MOD)
      ∧ (i < population.length - 1 → pick < (fitnesses.take (i + 1)).sum % SIZE_MOD)
      ∧ (fitnesses.dropLast.sum < SIZE_MOD →
          (∀ j, j < i → ¬ pick < (fitnesses.take (j + 1)).sum)
          ∧ (i < population.length - 1 → pick < (fitnesses.take (i + 1)).sum))
      ∧ (∀ last, select_pick population (fitnesses.dropLast ++ [last]) pick
          = select_pick population fitnesses pick) := by
  have hfne : fitnesses ≠ [] := by
    intro h; rw [h] at hlen; exact hne (List.eq_nil_of_length_eq_zero hlen.symm)
  obtain ⟨_, h2, h3, h4⟩ := find_if_pick_spec pick fitnesses.dropLast 0 0
  simp only [List.length_dropLast, Nat.zero_add, Nat.sub_zero] at h2 h3 h4
  have hbelow : ∀ j, j < find_if_pick pick fitnesses.dropLast 0 0 →
      ¬ pick < (fitnesses.take (j + 1)).sum % SIZE_MOD := by
    intro j hj
    have h := h3 j hj
    rwa [take_dropLast fitnesses (j + 1) (by omega)] at h
  have hfound : find_if_pick pick fitnesses.dropLast 0 0 < population.length - 1 →
      pick < (fitnesses.take (find_if_pick pick fitnesses.dropLast 0 0 + 1)).sum
        % SIZE_MOD := by
    intro hlt
    have h := h4 (by omega)
    rwa [take_dropLast fitnesses _ (by omega)] at h
  have hplain : fitnesses.dropLast.sum < SIZE_MOD → ∀ m, m ≤ fitnesses.length - 1 →
      (fitnesses.take m).sum % SIZE_MOD = (fitnesses.take m).sum := by
    intro hsum m hm
    apply Nat.mod_eq_of_lt
    have h := sum_take_le_sum fitnesses.dropLast m
    rw [take_dropLast fitnesses m hm] at h
    omega
  refine ⟨find_if_pick pick fitnesses.dropLast 0 0, by omega,
    select_pick_eq_getElem? population fitnesses pick hfne, hbelow, hfound, ?_, ?_⟩
  · intro hsum
    refine ⟨?_, ?_⟩
    · intro j hj
      have h := hbelow j hj
      rwa [hplain hsum (j + 1) (by omega)] at h
    · intro hlt
      have h := hfound hlt
      rwa [hplain hsum _ (by omega)] at h
  · intro last
    rw [select_pick_eq_getElem? population fitnesses pick hfne,
      select_pick_eq_getElem? population _ pick (by simp), List.dropLast_concat]

/-- Witness of `select_pick_spec` on a population of three. -/
theorem select_pick_spec_witness :
    ([[true], [false], [true]] : population_t) ≠ []
      ∧ ([3, 4, 5] : List Nat).length = ([[true], [false], [true]] : population_t).length
      ∧ ∃ i, i ≤ ([[true], [false], [true]] : population_t).length - 1
          ∧ select_pick [[true], [false], [true]] [3, 4, 5] 5
              = ([[true], [false], [true]] : population_t)[i]?
          ∧ (∀ j, j < i → ¬ 5 < (([3, 4, 5] : List Nat).take (j + 1)).sum % SIZE_MOD)
          ∧ (i < ([[true], [false], [true]] : population_t).length - 1 →
              5 < (([3, 4, 5] : List Nat).take (i + 1)).sum % SIZE_MOD)
          ∧ (([3, 4, 5] : List Nat).dropLast.sum < SIZE_MOD →
              (∀ j, j < i → ¬ 5 < (([3, 4, 5] : List Nat).take (j + 1)).sum)
              ∧ (i < ([[true], [false], [true]] : population_t).length - 1 →
                  5 < (([3, 4, 5] : List Nat).take (i + 1)).sum))
          ∧ (∀ last, select_pick [[true], [false], [true]]
                (([3, 4, 5] : List Nat).dropLast ++ [last]) 5
              = select_pick [[true], [false], [true]] [3, 4, 5] 5) :=
  ⟨by decide, by decide,
    select_pick_spec [[true], [false], [true]] [3, 4, 5] 5 (by decide) (by decide)⟩

/-- C4 as stated fails on the source: with the fitnesses `3, 2 ^ 64 - 1, 5`
and the draw 5 (within `[0, fitness_sum]`, the wrapped sum being 7), the
smallest index whose plain prefix sum exceeds the draw is 1, but the `size_t`
offset wraps to 2 there and `select` falls through to the last element,
index 2. -/
theorem select_overflow_counterexample :
    ([[true, false], [false, true], [false, false]] : population_t) ≠ []
      ∧ ([3, 2 ^ 64 - 1, 5] : List Nat).length
          = ([[true, false], [false, true], [false, false]] : population_t).length
      ∧ 5 ≤ accumulate [3, 2 ^ 64 - 1, 5]
      ∧ ¬ 5 < (([3, 2 ^ 64 - 1, 5] : List Nat).take 1).sum
      ∧ 5 < (([3, 2 ^ 64 - 1, 5] : List Nat).take 2).sum
      ∧ select_pick [[true, false], [false, true], [false, false]] [3, 2 ^ 64 - 1, 5] 5
          = some [false, false]
      ∧ select_pick [[true, false], [false, true], [false, false]] [3, 2 ^ 64 - 1, 5] 5
          ≠ ([[true, false], [false, true], [false, false]] : population_t)[1]? := by
  refine ⟨by decide, by decide, by decide, by decide, by decide, ?_, ?_⟩
  · decide
  · decide

theorem evaluateFrom_isSome (capacity : Nat) (genes : chromosome_t) :
    ∀ (items : List Item) (i weight value : Nat), i + items.length ≤ genes.length →
      ∃ fitness, evaluateFrom capacity genes items i weight value = some fitness := by
  intro items
  induction items with
  | nil => intro i weight value _; exact ⟨value, rfl⟩
  | cons item rest ih =>
    intro i weight value hlen
    simp only [List.length_cons] at hlen
    have hi : i < genes.length := by omega
    simp only [evaluateFrom, List.getElem?_eq_getElem hi]
    cases genes[i] with
    | false => exact ih (i + 1) weight value (by omega)
    | true =>
      by_cases hgt : (weight + item.weight) % SIZE_MOD > capacity
      · exact ⟨0, by simp [hgt]⟩
      · simp only [hgt, if_false]
        exact ih (i + 1) _ _ (by omega)

theorem evaluate_isSome (items : List Item) (capacity : Nat) (osobnik : chromosome_t)
    (hlen : osobnik.length = items.length) :
    ∃ fitness, evaluate items capacity osobnik = some fitness :=
  evaluateFrom_isSome capacity osobnik items 0 0 0 (by omega)

theorem transform_evaluate_forall₂ (items : List Item) (capacity : Nat) :
    ∀ (population : population_t) (fitnesses : List Nat),
      transform_evaluate items capacity population = some fitnesses →
      List.Forall₂ (fun chromosome fitness => evaluate items capacity chromosome = some fitness)
        population fitnesses := by
  intro population
  induction population with
  | nil =>
    intro fitnesses h
    simp only [transform_evaluate, Option.some.injEq] at h
    subst h; exact List.Forall₂.nil
  | cons c rest ih =>
    intro fitnesses h
    simp only [transform_evaluate] at h
    cases hc : evaluate items capacity c with
    | none => simp [hc] at h
    | some f =>
      cases hr : transform_evaluate items capacity rest with
      | none => simp [hc, hr] at h
      | some fs =>
        simp only [hc, hr, Option.some.injEq] at h
        subst h
        exact List.Forall₂.cons hc (ih fs hr)

theorem transform_evaluate_isSome (items : List Item) (capacity : Nat) :
    ∀ (population : population_t),
      (∀ chromosome ∈ population, chromosome.length = items.length) →
      ∃ fitnesses, transform_evaluate items capacity population = some fitnesses := by
  intro population
  induction population with
  | nil => intro _; exact ⟨[], rfl⟩
  | cons c rest ih =>
    intro hall
    obtain ⟨f, hf⟩ := evaluate_isSome items capacity c (hall c (List.mem_cons_self _ _))
    obtain ⟨fs, hfs⟩ := ih (fun x hx => hall x (List.mem_cons_of_mem _ hx))
    exact ⟨f :: fs, by simp [transform_evaluate, hf, hfs]⟩

theorem find_if_pick_zero (pick : Nat) :
    ∀ (xs : List Nat) (i : Nat), (∀ x ∈ xs, x = 0) →
      find_if_pick pick xs 0 i = i + xs.length := by
  intro xs
  induction xs with
  | nil => intro i _; rfl
  | cons x rest ih =>
    intro i hall
    have hx : x = 0 := hall x (List.mem_cons_self _ _)
    subst hx
    have hrest := ih (i + 1) (fun y hy => hall y (List.mem_cons_of_mem _ hy))
    simp only [find_if_pick, Nat.add_zero, Nat.zero_mod, Nat.not_lt_zero, if_false, hrest,
      List.length_cons]
    omega

theorem accumulate_zero : ∀ (xs : List Nat), (∀ x ∈ xs, x = 0) → accumulate xs = 0 := by
  intro xs
  unfold accumulate
  induction xs with
  | nil => intro _; rfl
  | cons x rest ih =>
    intro hall
    have hx : x = 0 := hall x (List.mem_cons_self _ _)
    subst hx
    simpa using ih (fun y hy => hall y (List.mem_cons_of_mem _ hy))

/-- C5.  For a non-empty population in which every chromosome evaluates to
0, the fitness sum is 0 and `select` returns the last population element,
for every draw and whatever the population holds. -/
theorem select_all_zero_last (items : List Item) (capacity : Nat)
    (population : population_t) (fitnesses : List Nat) (hne : population ≠ [])
    (hfit : transform_evaluate items capacity population = some fitnesses)
    (hzero : ∀ chromosome ∈ population, evaluate items capacity chromosome = some 0) :
    accumulate fitnesses = 0
      ∧ (∀ pick, select_pick population fitnesses pick = some (population.getLast hne))
      ∧ (∀ (g : Rng) (k : Nat),
          select g population fitnesses (accumulate fitnesses) k
            = some (population.getLast hne)) := by
  have hrel := transform_evaluate_forall₂ items capacity population fitnesses hfit
  have hlen : population.length = fitnesses.length := hrel.length_eq
  have hall : ∀ f ∈ fitnesses, f = 0 := by
    intro f hf
    obtain ⟨n, hn, rfl⟩ := List.getElem_of_mem hf
    have hn2 : n < population.length := by omega
    have h1 := List.Forall₂.get hrel hn2 hn
    have h2 := hzero (population.get ⟨n, hn2⟩) (List.get_mem _ _ _)
    simp only [List.get_eq_getElem] at h1 h2
    rw [h2] at h1
    exact (Option.some.inj h1).symm
  have hfne : fitnesses ≠ [] := by
    intro h; rw [h] at hlen; exact hne (List.eq_nil_of_length_eq_zero hlen)
  have hpick : ∀ pick, select_pick population fitnesses pick
      = some (population.getLast hne) := by
    intro pick
    rw [select_pick_eq_getElem? population fitnesses pick hfne,
      find_if_pick_zero pick fitnesses.dropLast 0
        (fun x hx => hall x (List.mem_of_mem_dropLast hx)),
      List.length_dropLast, Nat.zero_add, ← hlen, ← List.getLast?_eq_getElem?,
      List.getLast?_eq_getLast _ hne]
  exact ⟨accumulate_zero fitnesses hall, hpick, fun g k => hpick _⟩

/-- Witness of `select_all_zero_last`: two over-weight chromosomes. -/
theorem select_all_zero_last_witness :
    ([[true], [false]] : population_t) ≠ []
      ∧ transform_evaluate [Item.mk 7 3] 5 [[true], [false]] = some [0, 0]
      ∧ (∀ chromosome ∈ ([[true], [false]] : population_t),
          evaluate [Item.mk 7 3] 5 chromosome = some 0)
      ∧ accumulate [0, 0] = 0
      ∧ (∀ pick, select_pick [[true], [false]] [0, 0] pick = some [false])
      ∧ (∀ (g : Rng) (k : Nat),
          select g [[true], [false]] [0, 0] (accumulate [0, 0]) k = some [false]) :=
  ⟨by decide, by decide, by decide,
    select_all_zero_last [Item.mk 7 3] 5 [[true], [false]] [0, 0] (by decide) (by decide)
      (by decide)⟩

/-- C6.  For every chromosome and every sequence of per-gene draws in
`[0, 1)`, `mutate` with mutation rate 0 leaves every gene unchanged and with
mutation rate 1 flips every gene; the length is unchanged in both cases, and
one draw is taken per gene. -/
theorem mutate_rate_zero_one (g : Rng) :
    ∀ (chromosome : chromosome_t) (k : Nat),
      mutate 0 g chromosome k = (chromosome, k + chromosome.length)
      ∧ mutate 1 g chromosome k = (chromosome.map (fun gene => !gene), k + chromosome.length)
      ∧ (mutate 0 g chromosome k).1.length = chromosome.length
      ∧ (mutate 1 g chromosome k).1.length = chromosome.length := by
  have key : ∀ (chromosome : chromosome_t) (k : Nat),
      mutate 0 g chromosome k = (chromosome, k + chromosome.length)
      ∧ mutate 1 g chromosome k
          = (chromosome.map (fun gene => !gene), k + chromosome.length) := by
    intro chromosome
    induction chromosome with
    | nil => intro k; simp [mutate]
    | cons gene rest ih =>
      intro k
      have h0 : ¬ g.uniform_real k < 0 := not_lt.mpr (g.uniform_real_nonneg k)
      have h1 : g.uniform_real k < 1 := g.uniform_real_lt_one k
      obtain ⟨ih0, ih1⟩ := ih (k + 1)
      refine ⟨?_, ?_⟩
      · simp only [mutate, h0, if_false, ih0, List.length_cons]
        congr 1; omega
      · simp only [mutate, h1, if_true, ih1, List.length_cons, List.map_cons]
        congr 1; omega
  intro chromosome k
  obtain ⟨h0, h1⟩ := key chromosome k
  exact ⟨h0, h1, by rw [h0], by rw [h1]; simp⟩

theorem generate_chromosome_length (g : Rng) :
    ∀ (item_count k : Nat), (generate_chromosome g item_count k).1.length = item_count := by
  intro item_count
  induction item_count with
  | zero => intro k; rfl
  | succ n ih => intro k; simp [generate_chromosome, ih]

theorem generate_population_spec (g : Rng) (item_count : Nat) :
    ∀ (slots k : Nat),
      (generate_population g item_count slots k).1.length = slots
      ∧ ∀ chromosome ∈ (generate_population g item_count slots k).1,
          chromosome.length = item_count := by
  intro slots
  induction slots with
  | zero => intro k; simp [generate_population]
  | succ n ih =>
    intro k
    obtain ⟨h1, h2⟩ := ih (generate_chromosome g item_count k).2
    refine ⟨by simp [generate_population, h1], ?_⟩
    intro c hc
    simp only [generate_population, List.mem_cons] at hc
    rcases hc with rfl | hc
    · exact generate_chromosome_length g item_count k
    · exact h2 c hc

theorem mutate_length (mutation_rate : ℚ) (g : Rng) :
    ∀ (chromosome : chromosome_t) (k : Nat),
      (mutate mutation_rate g chromosome k).1.length = chromosome.length := by
  intro chromosome
  induction chromosome with
  | nil => intro k; rfl
  | cons gene rest ih => intro k; simp [mutate, ih]

theorem mutate_all_spec (mutation_rate : ℚ) (g : Rng) (item_count : Nat) :
    ∀ (population : population_t) (k : Nat),
      (mutate_all mutation_rate g population k).1.length = population.length
      ∧ ((∀ chromosome ∈ population, chromosome.length = item_count) →
          ∀ chromosome ∈ (mutate_all mutation_rate g population k).1,
            chromosome.length = item_count) := by
  intro population
  induction population with
  | nil => intro k; simp [mutate_all]
  | cons c rest ih =>
    intro k
    obtain ⟨h1, h2⟩ := ih (mutate mutation_rate g c k).2
    refine ⟨by simp [mutate_all, h1], ?_⟩
    intro hall x hx
    simp only [mutate_all, List.mem_cons] at hx
    rcases hx with rfl | hx
    · rw [mutate_length]; exact hall c (List.mem_cons_self _ _)
    · exact h2 (fun y hy => hall y (List.mem_cons_of_mem _ hy)) x hx

theorem breed_spec (g : Rng) (item_count : Nat) (population : population_t)
    (fitnesses : List Nat) (fitness_sum : Nat) (hne : population ≠ [])
    (hlen : fitnesses.length = population.length)
    (hall : ∀ chromosome ∈ population, chromosome.length = item_count) :
    ∀ (count k : Nat), ∃ children k2,
      breed g item_count population fitnesses fitness_sum count k = some (children, k2)
      ∧ children.length = count
      ∧ ∀ child ∈ children, child.length = item_count := by
  intro count
  induction count with
  | zero => intro k; exact ⟨[], k, rfl, rfl, by simp⟩
  | succ n ih =>
    intro k
    obtain ⟨c1, hs1, hm1⟩ :=
      select_pick_some_mem population fitnesses (g.uniform_int k fitness_sum) hne hlen
    obtain ⟨c2, hs2, hm2⟩ :=
      select_pick_some_mem population fitnesses (g.uniform_int (k + 1) fitness_sum) hne hlen
    have hcross := crossover_at_eq item_count c1 c2 (g.uniform_int (k + 2) item_count)
      (hall c1 hm1) (hall c2 hm2) (g.uniform_int_le _ _)
    obtain ⟨children, k2, hb, hl, hc⟩ := ih (k + 3)
    refine ⟨(c1.take (g.uniform_int (k + 2) item_count)
      ++ c2.drop (g.uniform_int (k + 2) item_count)) :: children, k2, ?_, by simp [hl], ?_⟩
    · simp only [breed, select, crossover, hs1, hs2, hcross, hb]
    · intro child hchild
      simp only [List.mem_cons] at hchild
      rcases hchild with rfl | hchild
      · have h1 := hall c1 hm1
        have h2 := hall c2 hm2
        have hle := g.uniform_int_le (k + 2) item_count
        simp only [List.length_append, List.length_take, List.length_drop]
        omega
      · exact hc child hchild

theorem max_element_from_spec :
    ∀ (rest pre : List Nat) (largest largest_value : Nat),
      pre[largest]? = some largest_value →
      (∀ f ∈ pre, f ≤ largest_value) →
      (∀ j f, j < largest → pre[j]? = some f → f < largest_value) →
      ∃ value, (pre ++ rest)[max_element_from rest pre.length largest largest_value]?
          = some value
        ∧ (∀ f ∈ pre ++ rest, f ≤ value)
        ∧ (∀ j f, j < max_element_from rest pre.length largest largest_value →
            (pre ++ rest)[j]? = some f → f < value) := by
  intro rest
  induction rest with
  | nil =>
    intro pre largest largest_value hidx hmax hfirst
    refine ⟨largest_value, ?_, ?_, ?_⟩
    · simpa [max_element_from] using hidx
    · simpa using hmax
    · simpa [max_element_from] using hfirst
  | cons x rest ih =>
    intro pre largest largest_value hidx hmax hfirst
    have hlargest : largest < pre.length := by
      by_contra hge
      rw [List.getElem?_eq_none (by omega)] at hidx
      exact Option.noConfusion hidx
    have hlen : (pre ++ [x]).length = pre.length + 1 := by simp
    have happ : pre ++ x :: rest = (pre ++ [x]) ++ rest := by simp
    by_cases hlt : largest_value < x
    · have hstep : max_element_from (x :: rest) pre.length largest largest_value
          = max_element_from rest (pre ++ [x]).length pre.length x := by
        simp [max_element_from, hlt]
      rw [hstep, happ]
      apply ih (pre ++ [x]) pre.length x
      · simp
      · intro f hf
        simp only [List.mem_append, List.mem_singleton] at hf
        rcases hf with hf | rfl
        · have := hmax f hf; omega
        · exact Nat.le_refl _
      · intro j f hj hjf
        rw [List.getElem?_append_left hj] at hjf
        have := hmax f (List.mem_iff_getElem?.mpr ⟨j, hjf⟩)
        omega
    · have hstep : max_element_from (x :: rest) pre.length largest largest_value
          = max_element_from rest (pre ++ [x]).length largest largest_value := by
        simp [max_element_from, hlt]
      rw [hstep, happ]
      apply ih (pre ++ [x]) largest largest_value
      · rw [List.getElem?_append_left hlargest]; exact hidx
      · intro f hf
        simp only [List.mem_append, List.mem_singleton] at hf
        rcases hf with hf | rfl
        · exact hmax f hf
        · omega
      · intro j f hj hjf
        rw [List.getElem?_append_left (by omega)] at hjf
        exact hfirst j f hj hjf

theorem max_element_spec (fitnesses : List Nat) (hne : fitnesses ≠ []) :
    ∃ best best_fitness, max_element fitnesses = some best
      ∧ fitnesses[best]? = some best_fitness
      ∧ (∀ f ∈ fitnesses, f ≤ best_fitness)
      ∧ (∀ j f, j < best → fitnesses[j]? = some f → f < best_fitness) := by
  cases fitnesses with
  | nil => exact absurd rfl hne
  | cons x rest =>
    obtain ⟨value, h1, h2, h3⟩ := max_element_from_spec rest [x] 0 x (by simp)
      (by simp) (by intro j f hj; omega)
    exact ⟨max_element_from rest 1 0 x, value, rfl, by simpa using h1, by simpa using h2,
      by simpa using h3⟩

theorem update_solution_spec (population : population_t) (fitnesses : List Nat)
    (solution : Solution) (hne : population ≠ [])
    (hlen : fitnesses.length = population.length) :
    ∃ best best_fitness chromosome, max_element fitnesses = some best
      ∧ fitnesses[best]? = some best_fitness
      ∧ population[best]? = some chromosome
      ∧ (∀ f ∈ fitnesses, f ≤ best_fitness)
      ∧ (∀ j f, j < best → fitnesses[j]? = some f → f < best_fitness)
      ∧ update_solution population fitnesses solution
          = some (if best_fitness > solution.fitness then ⟨chromosome, best_fitness⟩
                  else solution) := by
  have hfne : fitnesses ≠ [] := by
    intro h; rw [h] at hlen; exact hne (List.eq_nil_of_length_eq_zero hlen.symm)
  obtain ⟨best, best_fitness, hmax, hbest, hall, hfirst⟩ := max_element_spec fitnesses hfne
  have hb : best < population.length := by
    by_contra hge
    rw [List.getElem?_eq_none (by omega)] at hbest
    exact Option.noConfusion hbest
  refine ⟨best, best_fitness, population[best], hmax, hbest, List.getElem?_eq_getElem hb,
    hall, hfirst, ?_⟩
  simp only [update_solution, hmax, hbest, List.getElem?_eq_getElem hb]
  split <;> rfl

theorem transform_evaluate_length (items : List Item) (capacity : Nat)
    (population : population_t) (fitnesses : List Nat)
    (h : transform_evaluate items capacity population = some fitnesses) :
    fitnesses.length = population.length :=
  (transform_evaluate_forall₂ items capacity population fitnesses h).length_eq.symm

theorem transform_evaluate_getElem? (items : List Item) (capacity : Nat)
    (population : population_t) (fitnesses : List Nat)
    (h : transform_evaluate items capacity population = some fitnesses)
    (n : Nat) (chromosome : chromosome_t) (fitness : Nat)
    (hc : population[n]? = some chromosome) (hf : fitnesses[n]? = some fitness) :
    evaluate items capacity chromosome = some fitness := by
  have hrel := transform_evaluate_forall₂ items capacity population fitnesses h
  obtain ⟨hn1, rfl⟩ := List.getElem?_eq_some.mp hc
  obtain ⟨hn2, rfl⟩ := List.getElem?_eq_some.mp hf
  have := List.Forall₂.get hrel hn1 hn2
  simpa only [List.get_eq_getElem] using this

theorem transform_evaluate_mem (items : List Item) (capacity : Nat)
    (population : population_t) (fitnesses : List Nat)
    (h : transform_evaluate items capacity population = some fitnesses)
    (chromosome : chromosome_t) (hc : chromosome ∈ population) :
    ∃ fitness, fitness ∈ fitnesses ∧ evaluate items capacity chromosome = some fitness := by
  obtain ⟨n, hn⟩ := List.mem_iff_getElem?.mp hc
  have hlen := transform_evaluate_length items capacity population fitnesses h
  obtain ⟨hn1, _⟩ := List.getElem?_eq_some.mp hn
  have hn2 : n < fitnesses.length := by omega
  exact ⟨fitnesses[n], List.getElem_mem hn2,
    transform_evaluate_getElem? items capacity population fitnesses h n chromosome _ hn
      (List.getElem?_eq_getElem hn2)⟩

theorem generation_spec (g : Rng) (s : KnapsackSolver) (size : Nat) (hsize : 1 ≤ size)
    (hwf : WellFormed size s) :
    ∃ fitnesses children k next,
      transform_evaluate s.items_ s.capacity_ s.population_ = some fitnesses
      ∧ update_solution s.population_ fitnesses s.solution_ = some next.solution_
      ∧ breed g s.items_.length s.population_ fitnesses (accumulate fitnesses)
          (s.population_.length - 1) s.rng = some (children, k)
      ∧ next.population_
          = (mutate_all s.mutation_rate_ g (next.solution_.chromosome :: children) k).1
      ∧ generation g s = some next
      ∧ WellFormed size next
      ∧ next.items_ = s.items_ ∧ next.capacity_ = s.capacity_
      ∧ next.iterations_ = s.iterations_ ∧ next.mutation_rate_ = s.mutation_rate_
      ∧ s.solution_.fitness ≤ next.solution_.fitness
      ∧ (∀ chromosome ∈ s.population_, ∀ fitness,
          evaluate s.items_ s.capacity_ chromosome = some fitness →
          fitness ≤ next.solution_.fitness)
      ∧ (next.solution_ = s.solution_
          ∨ ∃ chromosome ∈ s.population_,
              evaluate s.items_ s.capacity_ chromosome = some next.solution_.fitness
              ∧ next.solution_.chromosome = chromosome) := by
  obtain ⟨hlen, hall, hsol⟩ := hwf
  have hne : s.population_ ≠ [] := by
    intro h; rw [h] at hlen; simp at hlen; omega
  obtain ⟨fitnesses, hfit⟩ := transform_evaluate_isSome s.items_ s.capacity_ s.population_ hall
  have hflen := transform_evaluate_length s.items_ s.capacity_ s.population_ fitnesses hfit
  obtain ⟨best, best_fitness, chromosome, _, hbest, hchrom, hmax, _, hupd⟩ :=
    update_solution_spec s.population_ fitnesses s.solution_ hne hflen
  obtain ⟨children, k, hbreed, hclen, hcall⟩ :=
    breed_spec g s.items_.length s.population_ fitnesses (accumulate fitnesses) hne hflen hall
      (s.population_.length - 1) s.rng
  have hbestmem : chromosome ∈ s.population_ := List.mem_iff_getElem?.mpr ⟨best, hchrom⟩
  have hbesteval := transform_evaluate_getElem? s.items_ s.capacity_ s.population_ fitnesses
    hfit best chromosome best_fitness hchrom hbest
  let solution : Solution :=
    if best_fitness > s.solution_.fitness then ⟨chromosome, best_fitness⟩ else s.solution_
  have hsolution : solution
      = if best_fitness > s.solution_.fitness then ⟨chromosome, best_fitness⟩
        else s.solution_ := rfl
  have hsollen : solution.chromosome.length = s.items_.length := by
    rw [hsolution]; split
    · exact hall chromosome hbestmem
    · exact hsol
  have hfitge : s.solution_.fitness ≤ solution.fitness ∧ best_fitness ≤ solution.fitness := by
    rw [hsolution]; split
    · constructor <;> simp only <;> omega
    · constructor <;> omega
  obtain ⟨hm1, hm2⟩ := mutate_all_spec s.mutation_rate_ g s.items_.length
    (solution.chromosome :: children) k
  refine ⟨fitnesses, children, k,
    { s with
      population_ := (mutate_all s.mutation_rate_ g (solution.chromosome :: children) k).1
      solution_ := solution
      rng := (mutate_all s.mutation_rate_ g (solution.chromosome :: children) k).2 },
    hfit, hupd, hbreed, rfl, ?_, ?_, rfl, rfl, rfl, rfl, hfitge.1, ?_, ?_⟩
  · simp only [generation, hfit, hupd, hbreed]
  · refine ⟨?_, ?_, hsollen⟩
    · simp only [hm1, List.length_cons, hclen]; omega
    · apply hm2
      intro c hc
      simp only [List.mem_cons] at hc
      rcases hc with rfl | hc
      · exact hsollen
      · exact hcall c hc
  · intro c hc f hf
    obtain ⟨f2, hf2mem, hf2⟩ :=
      transform_evaluate_mem s.items_ s.capacity_ s.population_ fitnesses hfit c hc
    rw [hf] at hf2
    have : f = f2 := Option.some.inj hf2
    have := hmax f2 hf2mem
    have := hfitge.2
    show f ≤ solution.fitness
    omega
  · show solution = s.solution_ ∨ _
    by_cases hgt : best_fitness > s.solution_.fitness
    · right
      refine ⟨chromosome, hbestmem, ?_, ?_⟩
      · show evaluate s.items_ s.capacity_ chromosome = some solution.fitness
        rw [hsolution, if_pos hgt]; exact hbesteval
      · show solution.chromosome = chromosome
        rw [hsolution, if_pos hgt]
    · left; rw [hsolution, if_neg hgt]

theorem generations_succ (g : Rng) :
    ∀ (count : Nat) (s : KnapsackSolver),
      generations g (count + 1) s = (generations g count s).bind (generation g) := by
  intro count
  induction count with
  | zero =>
    intro s
    simp only [generations, Option.some_bind]
    cases generation g s <;> rfl
  | succ n ih =>
    intro s
    rw [generations]
    cases h : generation g s with
    | none => simp [generations, h]
    | some next => simp only [ih next]; rw [generations, h]

theorem after_generation_succ (g : Rng) (s : KnapsackSolver) (count : Nat) :
    after_generation g s (count + 1) = (after_generation g s count).bind (generation g) :=
  generations_succ g count (first_population g s)

theorem first_population_wf (g : Rng) (items : List Item)
    (capacity population_size iterations : Nat) (mutation_rate : ℚ) :
    WellFormed population_size
      (first_population g
        (KnapsackSolver.construct items capacity population_size iterations mutation_rate)) := by
  obtain ⟨h1, h2⟩ := generate_population_spec g items.length population_size 0
  refine ⟨?_, ?_, ?_⟩
  · simpa [first_population, KnapsackSolver.construct] using h1
  · simpa [first_population, KnapsackSolver.construct] using h2
  · simp [first_population, KnapsackSolver.construct]

theorem after_generation_wf (g : Rng) (items : List Item)
    (capacity population_size iterations : Nat) (mutation_rate : ℚ)
    (hsize : 1 ≤ population_size) :
    ∀ (count : Nat), ∃ state,
      after_generation g
          (KnapsackSolver.construct items capacity population_size iterations mutation_rate)
          count = some state
      ∧ WellFormed population_size state
      ∧ state.items_ = items ∧ state.capacity_ = capacity
      ∧ state.iterations_ = iterations ∧ state.mutation_rate_ = mutation_rate := by
  intro count
  induction count with
  | zero =>
    exact ⟨_, rfl, first_population_wf g items capacity population_size iterations
      mutation_rate, rfl, rfl, rfl, rfl⟩
  | succ n ih =>
    obtain ⟨state, hstate, hwf, hi, hc, hit, hm⟩ := ih
    obtain ⟨_, _, _, next, _, _, _, _, hgen, hwf2, hi2, hc2, hit2, hm2, _⟩ :=
      generation_spec g state population_size hsize hwf
    refine ⟨next, ?_, hwf2, hi2.trans hi, hc2.trans hc, hit2.trans hit, hm2.trans hm⟩
    rw [after_generation_succ, hstate, Option.some_bind, hgen]

/-- C7.  For every configuration with population size at least 1 and every
stream of draws, the solver state after `k` and after `k + 1` generations
exists, `solution.fitness` after generation `k + 1` is at least the one
after generation `k`, and it starts from 0. -/
theorem solution_fitness_monotone (g : Rng) (items : List Item)
    (capacity population_size iterations : Nat) (mutation_rate : ℚ)
    (hsize : 1 ≤ population_size) (k : Nat) :
    ∃ start before after,
      after_generation g
          (KnapsackSolver.construct items capacity population_size iterations mutation_rate)
          0 = some start
      ∧ start.solution_.fitness = 0
      ∧ after_generation g
          (KnapsackSolver.construct items capacity population_size iterations mutation_rate)
          k = some before
      ∧ after_generation g
          (KnapsackSolver.construct items capacity population_size iterations mutation_rate)
          (k + 1) = some after
      ∧ before.solution_.fitness ≤ after.solution_.fitness := by
  obtain ⟨before, hbefore, hwf, _⟩ :=
    after_generation_wf g items capacity population_size iterations mutation_rate hsize k
  obtain ⟨_, _, _, next, _, _, _, _, hgen, _, _, _, _, _, hle, _⟩ :=
    generation_spec g before population_size hsize hwf
  refine ⟨_, before, next, rfl, rfl, hbefore, ?_, hle⟩
  rw [after_generation_succ, hbefore, Option.some_bind, hgen]

/-- Witness of `solution_fitness_monotone`: the three-item instance with a
population of two, between the second and third generation. -/
theorem solution_fitness_monotone_witness :
    1 ≤ 2
      ∧ ∃ start before after,
          after_generation (lcgRng 7)
              (KnapsackSolver.construct [Item.mk 2 3, Item.mk 3 4, Item.mk 4 5] 5 2 50
                (1 / 100)) 0 = some start
          ∧ start.solution_.fitness = 0
          ∧ after_generation (lcgRng 7)
              (KnapsackSolver.construct [Item.mk 2 3, Item.mk 3 4, Item.mk 4 5] 5 2 50
                (1 / 100)) 2 = some before
          ∧ after_generation (lcgRng 7)
              (KnapsackSolver.construct [Item.mk 2 3, Item.mk 3 4, Item.mk 4 5] 5 2 50
                (1 / 100)) (2 + 1) = some after
          ∧ before.solution_.fitness ≤ after.solution_.fitness :=
  ⟨by decide,
    solution_fitness_monotone (lcgRng 7) [Item.mk 2 3, Item.mk 3 4, Item.mk 4 5] 5 2 50
      (1 / 100) (by decide) 2⟩

/-- C9.  With `iterations = 0`, for every item list, capacity, population
size, mutation rate and stream of draws, `solve` returns fitness 0 and the
all-false chromosome of item-count length. -/
theorem solve_zero_iterations (g : Rng) (items : List Item)
    (capacity population_size : Nat) (mutation_rate : ℚ) :
    solve g (KnapsackSolver.construct items capacity population_size 0 mutation_rate)
      = some ⟨List.replicate items.length false, 0⟩ := by
  rfl

/-- C10.  For population size at least 1, after the first population and
after every completed generation the solver state exists, its population
holds exactly `population_size` chromosomes, and every chromosome in it and
the solution chromosome have exactly as many genes as there are items. -/
theorem population_well_formed (g : Rng) (items : List Item)
    (capacity population_size iterations : Nat) (mutation_rate : ℚ)
    (hsize : 1 ≤ population_size) (count : Nat) :
    ∃ state,
      after_generation g
          (KnapsackSolver.construct items capacity population_size iterations mutation_rate)
          count = some state
      ∧ state.population_.length = population_size
      ∧ (∀ chromosome ∈ state.population_, chromosome.length = items.length)
      ∧ state.solution_.chromosome.length = items.length := by
  obtain ⟨state, hstate, ⟨h1, h2, h3⟩, hi, _⟩ :=
    after_generation_wf g items capacity population_size iterations mutation_rate hsize count
  rw [hi] at h2 h3
  exact ⟨state, hstate, h1, h2, h3⟩

/-- Witness of `population_well_formed`: three items, a population of two,
after four generations. -/
theorem population_well_formed_witness :
    1 ≤ 2
      ∧ ∃ state,
          after_generation (lcgRng 7)
              (KnapsackSolver.construct [Item.mk 2 3, Item.mk 3 4, Item.mk 4 5] 5 2 50
                (1 / 100)) 4 = some state
          ∧ state.population_.length = 2
          ∧ (∀ chromosome ∈ state.population_,
              chromosome.length = [Item.mk 2 3, Item.mk 3 4, Item.mk 4 5].length)
          ∧ state.solution_.chromosome.length
              = [Item.mk 2 3, Item.mk 3 4, Item.mk 4 5].length :=
  ⟨by decide,
    population_well_formed (lcgRng 7) [Item.mk 2 3, Item.mk 3 4, Item.mk 4 5] 5 2 50
      (1 / 100) (by decide) 4⟩

theorem best_observed_invariant (g : Rng) (items : List Item)
    (capacity population_size iterations : Nat) (mutation_rate : ℚ)
    (hsize : 1 ≤ population_size) :
    ∀ (count : Nat), ∃ state,
      after_generation g
          (KnapsackSolver.construct items capacity population_size iterations mutation_rate)
          count = some state
      ∧ (∀ k, k < count → ∀ evaluated,
          after_generation g
              (KnapsackSolver.construct items capacity population_size iterations
                mutation_rate) k = some evaluated →
          ∀ chromosome ∈ evaluated.population_, ∀ fitness,
            evaluate items capacity chromosome = some fitness →
            fitness ≤ state.solution_.fitness)
      ∧ (state.solution_.fitness = 0
          ∨ ∃ k evaluated chromosome, k < count
              ∧ after_generation g
                  (KnapsackSolver.construct items capacity population_size iterations
                    mutation_rate) k = some evaluated
              ∧ chromosome ∈ evaluated.population_
              ∧ evaluate items capacity chromosome = some state.solution_.fitness) := by
  intro count
  induction count with
  | zero =>
    refine ⟨_, rfl, ?_, Or.inl rfl⟩
    intro k hk; omega
  | succ n ih =>
    obtain ⟨state, hstate, hbound, hseen⟩ := ih
    obtain ⟨state2, hstate2, hwf, hi, hc, _⟩ :=
      after_generation_wf g items capacity population_size iterations mutation_rate hsize n
    rw [hstate] at hstate2
    obtain rfl : state = state2 := Option.some.inj hstate2
    obtain ⟨_, _, _, next, _, _, _, _, hgen, _, _, _, _, _, hle, hpop, hnew⟩ :=
      generation_spec g state population_size hsize hwf
    rw [hi, hc] at hpop hnew
    refine ⟨next, ?_, ?_, ?_⟩
    · rw [after_generation_succ, hstate, Option.some_bind, hgen]
    · intro k hk evaluated hev c hmem f hf
      by_cases hkn : k < n
      · have := hbound k hkn evaluated hev c hmem f hf
        omega
      · have hkeq : k = n := by omega
        subst hkeq
        rw [hstate] at hev
        obtain rfl : state = evaluated := Option.some.inj hev
        exact hpop c hmem f hf
    · rcases hnew with hsame | ⟨c, hmem, hev, _⟩
      · rw [hsame]
        rcases hseen with hzero | ⟨k, evaluated, c, hk, hev, hmem, hf⟩
        · exact Or.inl hzero
        · exact Or.inr ⟨k, evaluated, c, by omega, hev, hmem, hf⟩
      · exact Or.inr ⟨n, state, c, Nat.lt_succ_self n, hstate, hmem, hev⟩

/-- C8.  After `solve` with at least one iteration and a population of at
least one, `solution.fitness` is the maximum of `evaluate` over every
chromosome of every evaluated population (generations 0 to `iterations - 1`):
no evaluated chromosome is fitter, and one of them has exactly that
fitness. -/
theorem solve_fitness_is_best_observed (g : Rng) (items : List Item)
    (capacity population_size iterations : Nat) (mutation_rate : ℚ)
    (hiter : 1 ≤ iterations) (hsize : 1 ≤ population_size) :
    ∃ solution,
      solve g
          (KnapsackSolver.construct items capacity population_size iterations mutation_rate)
        = some solution
      ∧ (∀ k, k < iterations → ∀ evaluated,
          after_generation g
              (KnapsackSolver.construct items capacity population_size iterations
                mutation_rate) k = some evaluated →
          ∀ chromosome ∈ evaluated.population_, ∀ fitness,
            evaluate items capacity chromosome = some fitness →
            fitness ≤ solution.fitness)
      ∧ ∃ k evaluated chromosome, k < iterations
          ∧ after_generation g
              (KnapsackSolver.construct items capacity population_size iterations
                mutation_rate) k = some evaluated
          ∧ chromosome ∈ evaluated.population_
          ∧ evaluate items capacity chromosome = some solution.fitness := by
  obtain ⟨state, hstate, hbound, hseen⟩ :=
    best_observed_invariant g items capacity population_size iterations mutation_rate hsize
      iterations
  refine ⟨state.solution_, ?_, hbound, ?_⟩
  · have hiters : (KnapsackSolver.construct items capacity population_size iterations
        mutation_rate).iterations_ = iterations := rfl
    rw [solve, hiters, hstate]; rfl
  · rcases hseen with hzero | hseen
    · obtain ⟨start, hstart, ⟨hlen, hall, _⟩, hi, _⟩ :=
        after_generation_wf g items capacity population_size iterations mutation_rate hsize 0
      have hne : start.population_ ≠ [] := by
        intro h; rw [h] at hlen; simp at hlen; omega
      obtain ⟨c, rest, hcons⟩ := List.exists_cons_of_ne_nil hne
      have hmem : c ∈ start.population_ := by rw [hcons]; exact List.mem_cons_self _ _
      have hclen : c.length = items.length := by rw [← hi]; exact hall c hmem
      obtain ⟨f, hf⟩ := evaluate_isSome items capacity c hclen
      have hle := hbound 0 (by omega) start hstart c hmem f hf
      have hf0 : f = state.solution_.fitness := by omega
      exact ⟨0, start, c, by omega, hstart, hmem, by rw [← hf0]; exact hf⟩
    · exact hseen

/-- Witness of `solve_fitness_is_best_observed`: the three-item instance with
a population of two and three iterations. -/
theorem solve_fitness_is_best_observed_witness :
    1 ≤ 3 ∧ 1 ≤ 2
      ∧ ∃ solution,
          solve (lcgRng 7)
              (KnapsackSolver.construct [Item.mk 2 3, Item.mk 3 4, Item.mk 4 5] 5 2 3
                (1 / 100))
            = some solution
          ∧ (∀ k, k < 3 → ∀ evaluated,
              after_generation (lcgRng 7)
                  (KnapsackSolver.construct [Item.mk 2 3, Item.mk 3 4, Item.mk 4 5] 5 2 3
                    (1 / 100)) k = some evaluated →
              ∀ chromosome ∈ evaluated.population_, ∀ fitness,
                evaluate [Item.mk 2 3, Item.mk 3 4, Item.mk 4 5] 5 chromosome
                  = some fitness →
                fitness ≤ solution.fitness)
          ∧ ∃ k evaluated chromosome, k < 3
              ∧ after_generation (lcgRng 7)
                  (KnapsackSolver.construct [Item.mk 2 3, Item.mk 3 4, Item.mk 4 5] 5 2 3
                    (1 / 100)) k = some evaluated
              ∧ chromosome ∈ evaluated.population_
              ∧ evaluate [Item.mk 2 3, Item.mk 3 4, Item.mk 4 5] 5 chromosome
                  = some solution.fitness :=
  ⟨by decide, by decide,
    solve_fitness_is_best_observed (lcgRng 7) [Item.mk 2 3, Item.mk 3 4, Item.mk 4 5] 5 2 3
      (1 / 100) (by decide) (by decide)⟩

/-- C20.  For every chromosome `p` whose length is the item count `n` and
every cut point `c` in `[0, n]`, `crossover(p, p)` is `p`: the same parent
drawn twice gives an exact clone before mutation. -/
theorem crossover_same_parent (n : Nat) (p : chromosome_t) (c : Nat)
    (hp : p.length = n) (hc : c ≤ n) :
    crossover_at n p p c = some p := by
  rw [crossover_at_eq n p p c hp hp hc, List.take_append_drop]

/-- Witness of `crossover_same_parent` with three genes and the cut point 2. -/
theorem crossover_same_parent_witness :
    ([true, false, true] : chromosome_t).length = 3 ∧ 2 ≤ 3
      ∧ crossover_at 3 [true, false, true] [true, false, true] 2
          = some [true, false, true] :=
  ⟨by decide, by decide, crossover_same_parent 3 [true, false, true] 2 (by decide) (by decide)⟩

/-- C13.  The EVALUATE step of a generation on a well-formed state with a
non-empty population: with `m` the maximum of the population's fitnesses and
`j` the smallest index whose fitness is `m`, the solution becomes
`{population[j], m}` when `m` is strictly greater than `solution.fitness`, and
both its chromosome and its fitness are left unchanged otherwise. -/
theorem evaluate_step_spec (g : Rng) (s : KnapsackSolver) (size : Nat) (hsize : 1 ≤ size)
    (hwf : WellFormed size s) :
    ∃ (fitnesses : List Nat) (j m : Nat) (chromosome : chromosome_t) (next : KnapsackSolver),
      transform_evaluate s.items_ s.capacity_ s.population_ = some fitnesses
      ∧ generation g s = some next
      ∧ fitnesses[j]? = some m
      ∧ s.population_[j]? = some chromosome
      ∧ (∀ f ∈ fitnesses, f ≤ m)
      ∧ (∀ (i f : Nat), i < j → fitnesses[i]? = some f → f < m)
      ∧ (m > s.solution_.fitness → next.solution_ = ⟨chromosome, m⟩)
      ∧ (m ≤ s.solution_.fitness → next.solution_ = s.solution_) := by
  obtain ⟨fitnesses, _, _, next, hfit, hupd, _, _, hgen, _⟩ :=
    generation_spec g s size hsize hwf
  have hne : s.population_ ≠ [] := by
    intro h; have := hwf.1; rw [h] at this; simp at this; omega
  have hflen := transform_evaluate_length s.items_ s.capacity_ s.population_ fitnesses hfit
  obtain ⟨j, m, chromosome, _, hj, hc, hmax, hfirst, hupd2⟩ :=
    update_solution_spec s.population_ fitnesses s.solution_ hne hflen
  rw [hupd] at hupd2
  have hsol := Option.some.inj hupd2
  refine ⟨fitnesses, j, m, chromosome, next, hfit, hgen, hj, hc, hmax, hfirst, ?_, ?_⟩
  · intro hgt; rw [hsol, if_pos hgt]
  · intro hle; rw [hsol, if_neg (by omega)]

/-- Witness of `evaluate_step_spec`: the first population of the three-item
instance with a population of two. -/
theorem evaluate_step_spec_witness :
    1 ≤ 2
      ∧ WellFormed 2
          (first_population (lcgRng 7)
            (KnapsackSolver.construct [Item.mk 2 3, Item.mk 3 4, Item.mk 4 5] 5 2 50 (1 / 100)))
      ∧ ∃ (fitnesses : List Nat) (j m : Nat) (chromosome : chromosome_t)
          (next : KnapsackSolver),
          transform_evaluate
              (first_population (lcgRng 7)
                (KnapsackSolver.construct [Item.mk 2 3, Item.mk 3 4, Item.mk 4 5] 5 2 50
                  (1 / 100))).items_
              (first_population (lcgRng 7)
                (KnapsackSolver.construct [Item.mk 2 3, Item.mk 3 4, Item.mk 4 5] 5 2 50
                  (1 / 100))).capacity_
              (first_population (lcgRng 7)
                (KnapsackSolver.construct [Item.mk 2 3, Item.mk 3 4, Item.mk 4 5] 5 2 50
                  (1 / 100))).population_ = some fitnesses
          ∧ generation (lcgRng 7)
              (first_population (lcgRng 7)
                (KnapsackSolver.construct [Item.mk 2 3, Item.mk 3 4, Item.mk 4 5] 5 2 50
                  (1 / 100))) = some next
          ∧ fitnesses[j]? = some m
          ∧ (first_population (lcgRng 7)
                (KnapsackSolver.construct [Item.mk 2 3, Item.mk 3 4, Item.mk 4 5] 5 2 50
                  (1 / 100))).population_[j]? = some chromosome
          ∧ (∀ f ∈ fitnesses, f ≤ m)
          ∧ (∀ (i f : Nat), i < j → fitnesses[i]? = some f → f < m)
          ∧ (m > (first_population (lcgRng 7)
                (KnapsackSolver.construct [Item.mk 2 3, Item.mk 3 4, Item.mk 4 5] 5 2 50
                  (1 / 100))).solution_.fitness → next.solution_ = ⟨chromosome, m⟩)
          ∧ (m ≤ (first_population (lcgRng 7)
                (KnapsackSolver.construct [Item.mk 2 3, Item.mk 3 4, Item.mk 4 5] 5 2 50
                  (1 / 100))).solution_.fitness
              → next.solution_
                  = (first_population (lcgRng 7)
                      (KnapsackSolver.construct [Item.mk 2 3, Item.mk 3 4, Item.mk 4 5] 5 2 50
                        (1 / 100))).solution_) :=
  ⟨by decide,
    first_population_wf (lcgRng 7) [Item.mk 2 3, Item.mk 3 4, Item.mk 4 5] 5 2 50 (1 / 100),
    evaluate_step_spec (lcgRng 7) _ 2 (by decide)
      (first_population_wf (lcgRng 7) [Item.mk 2 3, Item.mk 3 4, Item.mk 4 5] 5 2 50
        (1 / 100))⟩

theorem mutate_zero (g : Rng) :
    ∀ (chromosome : chromosome_t) (k : Nat), (mutate 0 g chromosome k).1 = chromosome := by
  intro chromosome
  induction chromosome with
  | nil => intro k; rfl
  | cons gene rest ih =>
    intro k
    have h0 : ¬ g.uniform_real k < 0 := not_lt.mpr (g.uniform_real_nonneg k)
    simp only [mutate, h0, if_false, ih]

theorem mutate_one (g : Rng) :
    ∀ (chromosome : chromosome_t) (k : Nat),
      (mutate 1 g chromosome k).1 = chromosome.map (fun gene => !gene) := by
  intro chromosome
  induction chromosome with
  | nil => intro k; rfl
  | cons gene rest ih =>
    intro k
    have h1 : g.uniform_real k < 1 := g.uniform_real_lt_one k
    simp only [mutate, h1, if_true, ih, List.map_cons]

theorem map_not_ne_self : ∀ (chromosome : chromosome_t), chromosome ≠ [] →
    chromosome.map (fun gene => !gene) ≠ chromosome := by
  intro chromosome hne h
  cases chromosome with
  | nil => exact hne rfl
  | cons gene rest =>
    simp only [List.map_cons, List.cons.injEq] at h
    cases gene <;> simp at h

/-- C14.  In every generation the next population is the mutation of the
list that starts with `solution.chromosome` as it stands after that
generation's EVALUATE step, followed by the children; so with mutation rate 0
and a population of at least one, the population after every completed
generation has `solution.chromosome` at index 0, for every stream of draws. -/
theorem elite_at_index_zero (g : Rng) (items : List Item)
    (capacity population_size iterations : Nat) (mutation_rate : ℚ)
    (hsize : 1 ≤ population_size) (count : Nat) :
    ∃ before fitnesses children k after,
      after_generation g
          (KnapsackSolver.construct items capacity population_size iterations mutation_rate)
          count = some before
      ∧ after_generation g
          (KnapsackSolver.construct items capacity population_size iterations mutation_rate)
          (count + 1) = some after
      ∧ transform_evaluate items capacity before.population_ = some fitnesses
      ∧ update_solution before.population_ fitnesses before.solution_ = some after.solution_
      ∧ after.population_
          = (mutate_all mutation_rate g (after.solution_.chromosome :: children) k).1
      ∧ (mutation_rate = 0 → after.population_[0]? = some after.solution_.chromosome) := by
  obtain ⟨before, hbefore, hwf, hi, hc, _, hm⟩ :=
    after_generation_wf g items capacity population_size iterations mutation_rate hsize count
  obtain ⟨fitnesses, children, k, after, hfit, hupd, _, hpop, hgen, _⟩ :=
    generation_spec g before population_size hsize hwf
  rw [hi, hc] at hfit
  rw [hm] at hpop
  refine ⟨before, fitnesses, children, k, after, hbefore, ?_, hfit, hupd, hpop, ?_⟩
  · rw [after_generation_succ, hbefore, Option.some_bind, hgen]
  · intro hzero
    rw [hpop, hzero]
    simp only [mutate_all, List.getElem?_cons_zero, mutate_zero]

/-- Witness of `elite_at_index_zero`: three items, a population of two,
mutation rate 0, the third generation. -/
theorem elite_at_index_zero_witness :
    1 ≤ 2
      ∧ ∃ before fitnesses children k after,
          after_generation (lcgRng 7)
              (KnapsackSolver.construct [Item.mk 2 3, Item.mk 3 4, Item.mk 4 5] 5 2 50 0)
              2 = some before
          ∧ after_generation (lcgRng 7)
              (KnapsackSolver.construct [Item.mk 2 3, Item.mk 3 4, Item.mk 4 5] 5 2 50 0)
              (2 + 1) = some after
          ∧ transform_evaluate [Item.mk 2 3, Item.mk 3 4, Item.mk 4 5] 5 before.population_
              = some fitnesses
          ∧ update_solution before.population_ fitnesses before.solution_
              = some after.solution_
          ∧ after.population_
              = (mutate_all 0 (lcgRng 7) (after.solution_.chromosome :: children) k).1
          ∧ ((0 : ℚ) = 0 → after.population_[0]? = some after.solution_.chromosome) :=
  ⟨by decide,
    elite_at_index_zero (lcgRng 7) [Item.mk 2 3, Item.mk 3 4, Item.mk 4 5] 5 2 50 0
      (by decide) 2⟩

/-- C15.  The elite copy is not protected from mutation: the new population
is `mutate` applied to the elite copy first and to every child after it, so
with mutation rate 1 and at least one item the population after a completed
generation has at index 0 the gene-wise complement of `solution.chromosome`,
which differs from it, while the recorded solution is the one the EVALUATE
step produced, untouched by the mutation. -/
theorem elite_is_mutated (g : Rng) (items : List Item)
    (capacity population_size iterations : Nat)
    (hitems : items ≠ []) (hsize : 1 ≤ population_size) (count : Nat) :
    ∃ before fitnesses children k after,
      after_generation g
          (KnapsackSolver.construct items capacity population_size iterations 1)
          count = some before
      ∧ after_generation g
          (KnapsackSolver.construct items capacity population_size iterations 1)
          (count + 1) = some after
      ∧ transform_evaluate items capacity before.population_ = some fitnesses
      ∧ update_solution before.population_ fitnesses before.solution_ = some after.solution_
      ∧ after.population_ = (mutate_all 1 g (after.solution_.chromosome :: children) k).1
      ∧ after.population_[0]? = some (mutate 1 g after.solution_.chromosome k).1
      ∧ after.population_[0]? = some (after.solution_.chromosome.map (fun gene => !gene))
      ∧ after.solution_.chromosome.map (fun gene => !gene) ≠ after.solution_.chromosome := by
  obtain ⟨before, hbefore, hwf, hi, hc, _, hm⟩ :=
    after_generation_wf g items capacity population_size iterations 1 hsize count
  obtain ⟨fitnesses, children, k, after, hfit, hupd, _, hpop, hgen, hwf2, hi2, _⟩ :=
    generation_spec g before population_size hsize hwf
  rw [hi, hc] at hfit
  rw [hm] at hpop
  have hhead : after.population_[0]? = some (mutate 1 g after.solution_.chromosome k).1 := by
    rw [hpop]; simp only [mutate_all, List.getElem?_cons_zero]
  have hlen : after.solution_.chromosome.length = items.length := by
    rw [← hi, ← hi2]; exact hwf2.2.2
  have hne : after.solution_.chromosome ≠ [] := by
    intro h; rw [h] at hlen
    exact hitems (List.eq_nil_of_length_eq_zero hlen.symm)
  refine ⟨before, fitnesses, children, k, after, hbefore, ?_, hfit, hupd, hpop, hhead, ?_,
    map_not_ne_self _ hne⟩
  · rw [after_generation_succ, hbefore, Option.some_bind, hgen]
  · rw [hhead, mutate_one]

/-- Witness of `elite_is_mutated`: three items, a population of two, the
third generation. -/
theorem elite_is_mutated_witness :
    [Item.mk 2 3, Item.mk 3 4, Item.mk 4 5] ≠ [] ∧ 1 ≤ 2
      ∧ ∃ before fitnesses children k after,
          after_generation (lcgRng 7)
              (KnapsackSolver.construct [Item.mk 2 3, Item.mk 3 4, Item.mk 4 5] 5 2 50 1)
              2 = some before
          ∧ after_generation (lcgRng 7)
              (KnapsackSolver.construct [Item.mk 2 3, Item.mk 3 4, Item.mk 4 5] 5 2 50 1)
              (2 + 1) = some after
          ∧ transform_evaluate [Item.mk 2 3, Item.mk 3 4, Item.mk 4 5] 5 before.population_
              = some fitnesses
          ∧ update_solution before.population_ fitnesses before.solution_
              = some after.solution_
          ∧ after.population_
              = (mutate_all 1 (lcgRng 7) (after.solution_.chromosome :: children) k).1
          ∧ after.population_[0]?
              = some (mutate 1 (lcgRng 7) after.solution_.chromosome k).1
          ∧ after.population_[0]?
              = some (after.solution_.chromosome.map (fun gene => !gene))
          ∧ after.solution_.chromosome.map (fun gene => !gene)
              ≠ after.solution_.chromosome :=
  ⟨by decide, by decide,
    elite_is_mutated (lcgRng 7) [Item.mk 2 3, Item.mk 3 4, Item.mk 4 5] 5 2 50
      (by decide) (by decide) 2⟩

/-- C16.  `solve` is total over every well-formed configuration: for a
non-empty item list, a population of at least one, any iteration count, a
mutation rate in `[0, 1]` and any stream of draws within their ranges, `solve`
returns a solution, and in every generation it runs no step reaches an error
branch: every gene lookup of `evaluate` succeeds, the maximum fitness is
dereferenced inside the fitness vector, and every `select` index and
`crossover` slice of the breeding step is in bounds. -/
theorem solve_total (g : Rng) (items : List Item)
    (capacity population_size iterations : Nat) (mutation_rate : ℚ)
    (_hitems : items ≠ []) (hsize : 1 ≤ population_size)
    (_hrate : 0 ≤ mutation_rate ∧ mutation_rate ≤ 1) :
    (∃ solution,
      solve g
          (KnapsackSolver.construct items capacity population_size iterations mutation_rate)
        = some solution)
      ∧ ∀ count, count < iterations →
          ∃ state fitnesses best best_fitness children k next,
            after_generation g
                (KnapsackSolver.construct items capacity population_size iterations
                  mutation_rate) count = some state
            ∧ transform_evaluate items capacity state.population_ = some fitnesses
            ∧ max_element fitnesses = some best
            ∧ fitnesses[best]? = some best_fitness
            ∧ breed g items.length state.population_ fitnesses (accumulate fitnesses)
                (state.population_.length - 1) state.rng = some (children, k)
            ∧ generation g state = some next := by
  refine ⟨?_, ?_⟩
  · obtain ⟨state, hstate, _⟩ :=
      after_generation_wf g items capacity population_size iterations mutation_rate hsize
        iterations
    refine ⟨state.solution_, ?_⟩
    have hiters : (KnapsackSolver.construct items capacity population_size iterations
        mutation_rate).iterations_ = iterations := rfl
    rw [solve, hiters, hstate]; rfl
  · intro count _
    obtain ⟨state, hstate, hwf, hi, hc, _⟩ :=
      after_generation_wf g items capacity population_size iterations mutation_rate hsize
        count
    obtain ⟨fitnesses, children, k, next, hfit, _, hbreed, _, hgen, _⟩ :=
      generation_spec g state population_size hsize hwf
    have hne : state.population_ ≠ [] := by
      intro h; have := hwf.1; rw [h] at this; simp at this; omega
    have hflen := transform_evaluate_length state.items_ state.capacity_ state.population_
      fitnesses hfit
    obtain ⟨best, best_fitness, _, hmax, hbest, _⟩ :=
      update_solution_spec state.population_ fitnesses state.solution_ hne hflen
    rw [hi, hc] at hfit
    rw [hi] at hbreed
    exact ⟨state, fitnesses, best, best_fitness, children, k, next, hstate, hfit, hmax,
      hbest, hbreed, hgen⟩

/-- Witness of `solve_total`: the end-to-end instance of the specification. -/
theorem solve_total_witness :
    [Item.mk 2 3, Item.mk 3 4, Item.mk 4 5] ≠ [] ∧ 1 ≤ 20
      ∧ ((0 : ℚ) ≤ 1 / 100 ∧ (1 / 100 : ℚ) ≤ 1)
      ∧ ((∃ solution,
          solve (lcgRng 7)
              (KnapsackSolver.construct [Item.mk 2 3, Item.mk 3 4, Item.mk 4 5] 5 20 50
                (1 / 100))
            = some solution)
        ∧ ∀ count, count < 50 →
            ∃ state fitnesses best best_fitness children k next,
              after_generation (lcgRng 7)
                  (KnapsackSolver.construct [Item.mk 2 3, Item.mk 3 4, Item.mk 4 5] 5 20 50
                    (1 / 100)) count = some state
              ∧ transform_evaluate [Item.mk 2 3, Item.mk 3 4, Item.mk 4 5] 5
                  state.population_ = some fitnesses
              ∧ max_element fitnesses = some best
              ∧ fitnesses[best]? = some best_fitness
              ∧ breed (lcgRng 7) [Item.mk 2 3, Item.mk 3 4, Item.mk 4 5].length
                  state.population_ fitnesses (accumulate fitnesses)
                  (state.population_.length - 1) state.rng = some (children, k)
              ∧ generation (lcgRng 7) state = some next) :=
  ⟨by decide, by decide, by norm_num,
    solve_total (lcgRng 7) [Item.mk 2 3, Item.mk 3 4, Item.mk 4 5] 5 20 50 (1 / 100)
      (by decide) (by decide) (by norm_num)⟩

theorem evaluate_replicate_false (items : List Item) (capacity : Nat) :
    evaluate items capacity (List.replicate items.length false) = some 0 := by
  have hpos : (0 : Nat) < SIZE_MOD := by decide
  have h := evaluateFrom_spec capacity items (List.replicate items.length false) 0 0
    (by simp) (Nat.zero_le _) hpos
    (by simp [includedWeight_replicate_false]; exact hpos)
  simpa [evaluate, includedWeight_replicate_false, includedValue_replicate_false] using h

theorem evaluate_no_overflow (items : List Item) (capacity : Nat) (osobnik : chromosome_t)
    (hlen : osobnik.length = items.length)
    (hweight : includedWeight items osobnik < SIZE_MOD) :
    evaluate items capacity osobnik
      = some (if includedWeight items osobnik > capacity then 0
              else includedValue items osobnik % SIZE_MOD) := by
  have hpos : (0 : Nat) < SIZE_MOD := by decide
  have h := evaluateFrom_spec capacity items osobnik 0 0 hlen (Nat.zero_le _) hpos
    (by simpa using hweight)
  simpa [evaluate] using h

theorem includedWeight_le_total :
    ∀ (items : List Item) (chromosome : chromosome_t),
      includedWeight items chromosome ≤ (items.map Item.weight).sum := by
  intro items
  induction items with
  | nil => intro chromosome; simp [includedWeight]
  | cons item rest ih =>
    intro chromosome
    cases chromosome with
    | nil => simp [includedWeight]
    | cons gene genes =>
      have := ih genes
      simp only [includedWeight, List.map_cons, List.sum_cons]
      split <;> omega

theorem includedValue_le_total :
    ∀ (items : List Item) (chromosome : chromosome_t),
      includedValue items chromosome ≤ (items.map Item.value).sum := by
  intro items
  induction items with
  | nil => intro chromosome; simp [includedValue]
  | cons item rest ih =>
    intro chromosome
    cases chromosome with
    | nil => simp [includedValue]
    | cons gene genes =>
      have := ih genes
      simp only [includedValue, List.map_cons, List.sum_cons]
      split <;> omega

theorem generation_solution_strict (g : Rng) (s : KnapsackSolver) (size : Nat)
    (hsize : 1 ≤ size) (hwf : WellFormed size s) :
    ∃ next, generation g s = some next
      ∧ WellFormed size next
      ∧ next.items_ = s.items_ ∧ next.capacity_ = s.capacity_
      ∧ (next.solution_ = s.solution_
          ∨ (s.solution_.fitness < next.solution_.fitness
              ∧ next.solution_.chromosome ∈ s.population_
              ∧ evaluate s.items_ s.capacity_ next.solution_.chromosome
                  = some next.solution_.fitness)) := by
  obtain ⟨fitnesses, _, _, next, hfit, hupd, _, _, hgen, hwf2, hi, hc, _⟩ :=
    generation_spec g s size hsize hwf
  have hne : s.population_ ≠ [] := by
    intro h; have := hwf.1; rw [h] at this; simp at this; omega
  have hflen := transform_evaluate_length s.items_ s.capacity_ s.population_ fitnesses hfit
  obtain ⟨j, m, chromosome, _, hj, hcj, _, _, hupd2⟩ :=
    update_solution_spec s.population_ fitnesses s.solution_ hne hflen
  rw [hupd] at hupd2
  have hsol := Option.some.inj hupd2
  refine ⟨next, hgen, hwf2, hi, hc, ?_⟩
  by_cases hgt : m > s.solution_.fitness
  · right
    rw [hsol, if_pos hgt]
    exact ⟨hgt, List.mem_iff_getElem?.mpr ⟨j, hcj⟩,
      transform_evaluate_getElem? s.items_ s.capacity_ s.population_ fitnesses hfit j
        chromosome m hcj hj⟩
  · left; rw [hsol, if_neg hgt]

theorem solution_packing_invariant (g : Rng) (items : List Item)
    (capacity population_size iterations : Nat) (mutation_rate : ℚ)
    (hsize : 1 ≤ population_size) :
    ∀ (count : Nat), ∃ state,
      after_generation g
          (KnapsackSolver.construct items capacity population_size iterations mutation_rate)
          count = some state
      ∧ state.solution_.chromosome.length = items.length
      ∧ evaluate items capacity state.solution_.chromosome = some state.solution_.fitness
      ∧ (state.solution_.chromosome = List.replicate items.length false
          ∨ 0 < state.solution_.fitness) := by
  intro count
  induction count with
  | zero =>
    exact ⟨_, rfl, by simp [first_population, KnapsackSolver.construct],
      evaluate_replicate_false items capacity, Or.inl rfl⟩
  | succ n ih =>
    obtain ⟨state, hstate, hlen, hev, hcase⟩ := ih
    obtain ⟨state2, hstate2, hwf, hi, hc, _⟩ :=
      after_generation_wf g items capacity population_size iterations mutation_rate hsize n
    rw [hstate] at hstate2
    obtain rfl : state = state2 := Option.some.inj hstate2
    obtain ⟨next, hgen, hwf2, hi2, _, hnew⟩ :=
      generation_solution_strict g state population_size hsize hwf
    refine ⟨next, ?_, ?_, ?_, ?_⟩
    · rw [after_generation_succ, hstate, Option.some_bind, hgen]
    · rw [← hi, ← hi2]; exact hwf2.2.2
    · rcases hnew with hsame | ⟨_, _, hev2⟩
      · rw [hsame]; exact hev
      · rw [hi, hc] at hev2; exact hev2
    · rcases hnew with hsame | ⟨hlt, _, _⟩
      · rw [hsame]; exact hcase
      · right; omega

/-- C17, as the source behaves.  When the weights of all items sum to less
than `2 ^ 64` and so do their values, then at construction and after every
generation of `solve` (population size at least 1, any draws) the items
included by `solution.chromosome` have total weight within capacity, and
`solution.fitness` equals both `evaluate(solution.chromosome)` and the sum of
the values of those items. -/
theorem solution_is_valid_packing (g : Rng) (items : List Item)
    (capacity population_size iterations : Nat) (mutation_rate : ℚ)
    (hsize : 1 ≤ population_size)
    (hweights : (items.map Item.weight).sum < SIZE_MOD)
    (hvalues : (items.map Item.value).sum < SIZE_MOD) (count : Nat) :
    (evaluate items capacity
          (KnapsackSolver.construct items capacity population_size iterations
            mutation_rate).solution_.chromosome
        = some (KnapsackSolver.construct items capacity population_size iterations
            mutation_rate).solution_.fitness
      ∧ includedWeight items
          (KnapsackSolver.construct items capacity population_size iterations
            mutation_rate).solution_.chromosome ≤ capacity
      ∧ (KnapsackSolver.construct items capacity population_size iterations
            mutation_rate).solution_.fitness
          = includedValue items
              (KnapsackSolver.construct items capacity population_size iterations
                mutation_rate).solution_.chromosome)
      ∧ ∃ state,
          after_generation g
              (KnapsackSolver.construct items capacity population_size iterations
                mutation_rate) count = some state
          ∧ evaluate items capacity state.solution_.chromosome = some state.solution_.fitness
          ∧ includedWeight items state.solution_.chromosome ≤ capacity
          ∧ state.solution_.fitness = includedValue items state.solution_.chromosome := by
  refine ⟨⟨evaluate_replicate_false items capacity, ?_, ?_⟩, ?_⟩
  · simp [KnapsackSolver.construct, includedWeight_replicate_false]
  · simp [KnapsackSolver.construct, includedValue_replicate_false]
  · obtain ⟨state, hstate, hlen, hev, hcase⟩ :=
      solution_packing_invariant g items capacity population_size iterations mutation_rate
        hsize count
    refine ⟨state, hstate, hev, ?_⟩
    rcases hcase with hinit | hpos
    · have h0 := evaluate_replicate_false items capacity
      rw [hinit] at hev
      rw [h0] at hev
      have hfit : state.solution_.fitness = 0 := (Option.some.inj hev).symm
      rw [hinit, hfit, includedWeight_replicate_false, includedValue_replicate_false]
      exact ⟨Nat.zero_le _, rfl⟩
    · have hw := includedWeight_le_total items state.solution_.chromosome
      have hv := includedValue_le_total items state.solution_.chromosome
      have h := evaluate_no_overflow items capacity state.solution_.chromosome hlen
        (by omega)
      rw [hev] at h
      have heq := Option.some.inj h
      by_cases hgt : includedWeight items state.solution_.chromosome > capacity
      · rw [if_pos hgt] at heq; omega
      · rw [if_neg hgt, Nat.mod_eq_of_lt (by omega)] at heq
        exact ⟨by omega, heq⟩

/-- Witness of `solution_is_valid_packing`: the three-item instance with a
population of two, after four generations. -/
theorem solution_is_valid_packing_witness :
    1 ≤ 2
      ∧ ([Item.mk 2 3, Item.mk 3 4, Item.mk 4 5].map Item.weight).sum < SIZE_MOD
      ∧ ([Item.mk 2 3, Item.mk 3 4, Item.mk 4 5].map Item.value).sum < SIZE_MOD
      ∧ ((evaluate [Item.mk 2 3, Item.mk 3 4, Item.mk 4 5] 5
              (KnapsackSolver.construct [Item.mk 2 3, Item.mk 3 4, Item.mk 4 5] 5 2 50
                (1 / 100)).solution_.chromosome
            = some (KnapsackSolver.construct [Item.mk 2 3, Item.mk 3 4, Item.mk 4 5] 5 2 50
                (1 / 100)).solution_.fitness
          ∧ includedWeight [Item.mk 2 3, Item.mk 3 4, Item.mk 4 5]
              (KnapsackSolver.construct [Item.mk 2 3, Item.mk 3 4, Item.mk 4 5] 5 2 50
                (1 / 100)).solution_.chromosome ≤ 5
          ∧ (KnapsackSolver.construct [Item.mk 2 3, Item.mk 3 4, Item.mk 4 5] 5 2 50
                (1 / 100)).solution_.fitness
              = includedValue [Item.mk 2 3, Item.mk 3 4, Item.mk 4 5]
                  (KnapsackSolver.construct [Item.mk 2 3, Item.mk 3 4, Item.mk 4 5] 5 2 50
                    (1 / 100)).solution_.chromosome)
        ∧ ∃ state,
            after_generation (lcgRng 7)
                (KnapsackSolver.construct [Item.mk 2 3, Item.mk 3 4, Item.mk 4 5] 5 2 50
                  (1 / 100)) 4 = some state
            ∧ evaluate [Item.mk 2 3, Item.mk 3 4, Item.mk 4 5] 5 state.solution_.chromosome
                = some state.solution_.fitness
            ∧ includedWeight [Item.mk 2 3, Item.mk 3 4, Item.mk 4 5]
                state.solution_.chromosome ≤ 5
            ∧ state.solution_.fitness
                = includedValue [Item.mk 2 3, Item.mk 3 4, Item.mk 4 5]
                    state.solution_.chromosome) :=
  ⟨by decide, by decide, by decide,
    solution_is_valid_packing (lcgRng 7) [Item.mk 2 3, Item.mk 3 4, Item.mk 4 5] 5 2 50
      (1 / 100) (by decide) (by decide) (by decide) 4⟩

/-- C17 as stated fails on the source: with capacity 10, the items `(5, 1)`
and `(2 ^ 64 - 1, 1)`, a population of one whose first chromosome includes
both, the running `size_t` weight wraps to 4, the chromosome scores 2 and is
recorded as the solution after the first generation, although its items
weigh `2 ^ 64 + 4`, more than the capacity. -/
theorem solution_packing_overflow_counterexample :
    1 ≤ 1
      ∧ (after_generation (lcgRng 16)
            (KnapsackSolver.construct [Item.mk 5 1, Item.mk (2 ^ 64 - 1) 1] 10 1 1 0) 1).map
          (fun state => state.solution_) = some ⟨[true, true], 2⟩
      ∧ ¬ includedWeight [Item.mk 5 1, Item.mk (2 ^ 64 - 1) 1] [true, true] ≤ 10 := by
  refine ⟨by decide, ?_, by decide⟩
  rfl

theorem mem_all_chromosomes :
    ∀ (chromosome : chromosome_t), chromosome ∈ all_chromosomes chromosome.length := by
  intro chromosome
  induction chromosome with
  | nil => simp [all_chromosomes]
  | cons gene genes ih =>
    simp only [List.length_cons, all_chromosomes, List.mem_append, List.mem_map]
    cases gene with
    | false => exact Or.inl ⟨genes, ih, rfl⟩
    | true => exact Or.inr ⟨genes, ih, rfl⟩

theorem le_foldr_max : ∀ (xs : List Nat) (x : Nat), x ∈ xs → x ≤ xs.foldr Nat.max 0 := by
  intro xs
  induction xs with
  | nil => intro x hx; simp at hx
  | cons y rest ih =>
    intro x hx
    simp only [List.mem_cons] at hx
    simp only [List.foldr_cons]
    rcases hx with rfl | hx
    · exact Nat.le_max_left _ _
    · exact Nat.le_trans (ih x hx) (Nat.le_max_right _ _)

theorem subset_value_le_optimum (items : List Item) (capacity : Nat)
    (chromosome : chromosome_t) (hlen : chromosome.length = items.length) :
    subset_value items capacity chromosome ≤ brute_force_optimum items capacity := by
  apply le_foldr_max
  apply List.mem_map.mpr
  refine ⟨chromosome, ?_, rfl⟩
  rw [← hlen]
  exact mem_all_chromosomes chromosome

theorem foldr_max_attained : ∀ (xs : List Nat), xs ≠ [] → xs.foldr Nat.max 0 ∈ xs := by
  intro xs
  induction xs with
  | nil => intro h; exact absurd rfl h
  | cons y rest ih =>
    intro _
    simp only [List.foldr_cons, List.mem_cons]
    cases rest with
    | nil => left; simp
    | cons z zs =>
      have hmem := ih (by simp)
      rcases Nat.le_total y ((z :: zs).foldr Nat.max 0) with hle | hle
      · right
        have hmax : y.max ((z :: zs).foldr Nat.max 0) = (z :: zs).foldr Nat.max 0 :=
          Nat.max_eq_right hle
        rw [hmax]; exact hmem
      · left
        exact (Nat.max_eq_left hle : y.max ((z :: zs).foldr Nat.max 0) = y)

/-- C18, as the source behaves.  When the weights of all items sum to less
than `2 ^ 64`, then for every configuration with population size at least 1
and every stream of draws `solve` returns a solution whose fitness is at most
the brute-force optimum, the maximum total value over all subsets of the
items whose total weight is within capacity; that optimum is the value of
one such subset. -/
theorem solve_le_brute_force_optimum (g : Rng) (items : List Item)
    (capacity population_size iterations : Nat) (mutation_rate : ℚ)
    (hsize : 1 ≤ population_size)
    (hweights : (items.map Item.weight).sum < SIZE_MOD) :
    (∃ solution,
      solve g
          (KnapsackSolver.construct items capacity population_size iterations mutation_rate)
        = some solution
      ∧ solution.fitness ≤ brute_force_optimum items capacity)
    ∧ (∀ chromosome : chromosome_t, chromosome.length = items.length →
        includedWeight items chromosome ≤ capacity →
        includedValue items chromosome ≤ brute_force_optimum items capacity)
    ∧ ∃ chromosome : chromosome_t, chromosome.length = items.length
        ∧ includedWeight items chromosome ≤ capacity
        ∧ includedValue items chromosome = brute_force_optimum items capacity := by
  refine ⟨?_, ?_, ?_⟩
  · obtain ⟨state, hstate, hlen, hev, _⟩ :=
      solution_packing_invariant g items capacity population_size iterations mutation_rate
        hsize iterations
    refine ⟨state.solution_, ?_, ?_⟩
    · have hiters : (KnapsackSolver.construct items capacity population_size iterations
          mutation_rate).iterations_ = iterations := rfl
      rw [solve, hiters, hstate]; rfl
    · have hw := includedWeight_le_total items state.solution_.chromosome
      have h := evaluate_no_overflow items capacity state.solution_.chromosome hlen
        (by omega)
      rw [hev] at h
      have heq := Option.some.inj h
      have hopt := subset_value_le_optimum items capacity state.solution_.chromosome hlen
      unfold subset_value at hopt
      by_cases hgt : includedWeight items state.solution_.chromosome > capacity
      · rw [if_pos hgt] at heq; omega
      · rw [if_neg hgt] at heq
        rw [if_pos (by omega)] at hopt
        have := Nat.mod_le (includedValue items state.solution_.chromosome) SIZE_MOD
        omega
  · intro chromosome hlen hfit
    have hopt := subset_value_le_optimum items capacity chromosome hlen
    unfold subset_value at hopt
    rwa [if_pos hfit] at hopt
  · have hne : (all_chromosomes items.length).map (subset_value items capacity) ≠ [] := by
      intro h
      have hmem : List.replicate items.length false ∈ all_chromosomes items.length := by
        have := mem_all_chromosomes (List.replicate items.length false)
        simpa using this
      have := List.mem_map_of_mem (subset_value items capacity) hmem
      rw [h] at this
      simp at this
    obtain ⟨chromosome, hmem, hval⟩ := List.mem_map.mp (foldr_max_attained _ hne)
    have hlen : ∀ (n : Nat) (c : chromosome_t), c ∈ all_chromosomes n → c.length = n := by
      intro n
      induction n with
      | zero => intro c hc; simp [all_chromosomes] at hc; simp [hc]
      | succ m ih =>
        intro c hc
        simp only [all_chromosomes, List.mem_append, List.mem_map] at hc
        rcases hc with ⟨d, hd, rfl⟩ | ⟨d, hd, rfl⟩ <;> simp [ih d hd]
    by_cases hfit : includedWeight items chromosome ≤ capacity
    · refine ⟨chromosome, hlen _ _ hmem, hfit, ?_⟩
      unfold subset_value at hval
      rw [if_pos hfit] at hval
      exact hval
    · refine ⟨List.replicate items.length false, by simp, ?_, ?_⟩
      · simp [includedWeight_replicate_false]
      · unfold subset_value at hval
        rw [if_neg hfit] at hval
        rw [includedValue_replicate_false]
        exact hval

/-- Witness of `solve_le_brute_force_optimum`: the three-item instance with a
population of two and three iterations. -/
theorem solve_le_brute_force_optimum_witness :
    1 ≤ 2
      ∧ ([Item.mk 2 3, Item.mk 3 4, Item.mk 4 5].map Item.weight).sum < SIZE_MOD
      ∧ ((∃ solution,
          solve (lcgRng 7)
              (KnapsackSolver.construct [Item.mk 2 3, Item.mk 3 4, Item.mk 4 5] 5 2 3
                (1 / 100))
            = some solution
          ∧ solution.fitness ≤ brute_force_optimum [Item.mk 2 3, Item.mk 3 4, Item.mk 4 5] 5)
        ∧ (∀ chromosome : chromosome_t,
            chromosome.length = [Item.mk 2 3, Item.mk 3 4, Item.mk 4 5].length →
            includedWeight [Item.mk 2 3, Item.mk 3 4, Item.mk 4 5] chromosome ≤ 5 →
            includedValue [Item.mk 2 3, Item.mk 3 4, Item.mk 4 5] chromosome
              ≤ brute_force_optimum [Item.mk 2 3, Item.mk 3 4, Item.mk 4 5] 5)
        ∧ ∃ chromosome : chromosome_t,
            chromosome.length = [Item.mk 2 3, Item.mk 3 4, Item.mk 4 5].length
            ∧ includedWeight [Item.mk 2 3, Item.mk 3 4, Item.mk 4 5] chromosome ≤ 5
            ∧ includedValue [Item.mk 2 3, Item.mk 3 4, Item.mk 4 5] chromosome
                = brute_force_optimum [Item.mk 2 3, Item.mk 3 4, Item.mk 4 5] 5) :=
  ⟨by decide, by decide,
    solve_le_brute_force_optimum (lcgRng 7) [Item.mk 2 3, Item.mk 3 4, Item.mk 4 5] 5 2 3
      (1 / 100) (by decide) (by decide)⟩

/-- C18 as stated fails on the source: with capacity 10 and the items
`(5, 1)` and `(2 ^ 64 - 1, 1)` the only subsets within capacity are the empty
one and the first item alone, so the brute-force optimum is 1, but the
chromosome including both items scores 2 through the wrapped `size_t` weight
and `solve` returns fitness 2. -/
theorem solve_exceeds_optimum_counterexample :
    1 ≤ 1
      ∧ solve (lcgRng 16)
          (KnapsackSolver.construct [Item.mk 5 1, Item.mk (2 ^ 64 - 1) 1] 10 1 1 0)
        = some ⟨[true, true], 2⟩
      ∧ brute_force_optimum [Item.mk 5 1, Item.mk (2 ^ 64 - 1) 1] 10 = 1
      ∧ ¬ (2 : Nat) ≤ brute_force_optimum [Item.mk 5 1, Item.mk (2 ^ 64 - 1) 1] 10 := by
  refine ⟨by decide, ?_, by decide, by decide⟩
  rfl

theorem mutate_rate_ge_one (g : Rng) (mutation_rate : ℚ) (hrate : 1 ≤ mutation_rate) :
    ∀ (chromosome : chromosome_t) (k : Nat),
      (mutate mutation_rate g chromosome k).1 = chromosome.map (fun gene => !gene) := by
  intro chromosome
  induction chromosome with
  | nil => intro k; rfl
  | cons gene rest ih =>
    intro k
    have h1 : g.uniform_real k < mutation_rate :=
      lt_of_lt_of_le (g.uniform_real_lt_one k) hrate
    simp only [mutate, h1, if_true, ih, List.map_cons]

theorem mutate_rate_le_zero (g : Rng) (mutation_rate : ℚ) (hrate : mutation_rate ≤ 0) :
    ∀ (chromosome : chromosome_t) (k : Nat),
      (mutate mutation_rate g chromosome k).1 = chromosome := by
  intro chromosome
  induction chromosome with
  | nil => intro k; rfl
  | cons gene rest ih =>
    intro k
    have h0 : ¬ g.uniform_real k < mutation_rate :=
      not_lt.mpr (le_trans hrate (g.uniform_real_nonneg k))
    simp only [mutate, h0, if_false, ih]

theorem solve_empty_population_undefined (g : Rng) (items : List Item)
    (capacity iterations : Nat) (mutation_rate : ℚ) (hiter : 1 ≤ iterations) :
    solve g (KnapsackSolver.construct items capacity 0 iterations mutation_rate) = none := by
  obtain ⟨n, rfl⟩ : ∃ n, iterations = n + 1 := ⟨iterations - 1, by omega⟩
  rfl

/-- C11, as the source behaves.  The constructor performs no validation: for
every item list, population size and mutation rate, an empty list, a zero
size and a rate outside `[0, 1]` included, it builds a solver that stores its
arguments unchanged.  Later, a solver with no items and a population of at
least one returns fitness 0 with the empty chromosome, a solver with an empty
population and no iterations returns its initial solution, a mutation rate of
1 or more flips every gene and a rate of 0 or less flips none. -/
theorem construct_accepts_any_input (g : Rng) (items : List Item)
    (capacity population_size iterations : Nat) (mutation_rate : ℚ) :
    (∃ s, KnapsackSolver.construct items capacity population_size iterations mutation_rate = s
      ∧ s.items_ = items ∧ s.capacity_ = capacity
      ∧ s.population_ = List.replicate population_size []
      ∧ s.iterations_ = iterations ∧ s.mutation_rate_ = mutation_rate
      ∧ s.solution_ = ⟨List.replicate items.length false, 0⟩)
    ∧ (1 ≤ population_size →
        solve g (KnapsackSolver.construct [] capacity population_size iterations mutation_rate)
          = some ⟨[], 0⟩)
    ∧ solve g (KnapsackSolver.construct items capacity 0 0 mutation_rate)
        = some ⟨List.replicate items.length false, 0⟩
    ∧ (1 ≤ mutation_rate → ∀ (chromosome : chromosome_t) (k : Nat),
        (mutate mutation_rate g chromosome k).1 = chromosome.map (fun gene => !gene))
    ∧ (mutation_rate ≤ 0 → ∀ (chromosome : chromosome_t) (k : Nat),
        (mutate mutation_rate g chromosome k).1 = chromosome) := by
  refine ⟨⟨_, rfl, rfl, rfl, rfl, rfl, rfl, rfl⟩, ?_, rfl,
    mutate_rate_ge_one g mutation_rate, mutate_rate_le_zero g mutation_rate⟩
  intro hsize
  obtain ⟨state, hstate, hlen, hev, _⟩ :=
    solution_packing_invariant g [] capacity population_size iterations mutation_rate hsize
      iterations
  have hchrom : state.solution_.chromosome = [] :=
    List.eq_nil_of_length_eq_zero (by simpa using hlen)
  rw [hchrom] at hev
  have hfit : state.solution_.fitness = 0 := by
    have h0 : evaluate [] capacity [] = some 0 := rfl
    rw [h0] at hev
    exact (Option.some.inj hev).symm
  have hiters : (KnapsackSolver.construct [] capacity population_size iterations
      mutation_rate).iterations_ = iterations := rfl
  rw [solve, hiters, hstate]
  show some state.solution_ = some ⟨[], 0⟩
  rw [← hchrom, ← hfit]

/-- C11 as stated fails on the source: the constructor called with an empty
item list and the mutation rate 2 returns a solver holding exactly these
arguments, and `solve` on it later returns the degenerate solution of fitness
0 with no genes; called with population size zero it returns a solver with an
empty population. -/
theorem construct_unvalidated_counterexample :
    (KnapsackSolver.construct [] 5 1 1 2).items_ = []
      ∧ (KnapsackSolver.construct [] 5 1 1 2).mutation_rate_ = 2
      ∧ ¬ ((0 : ℚ) ≤ 2 ∧ (2 : ℚ) ≤ 1)
      ∧ solve (lcgRng 7) (KnapsackSolver.construct [] 5 1 1 2) = some ⟨[], 0⟩
      ∧ (KnapsackSolver.construct [Item.mk 2 3] 5 0 0 (1 / 100)).population_ = []
      ∧ solve (lcgRng 7) (KnapsackSolver.construct [Item.mk 2 3] 5 0 0 (1 / 100))
          = some ⟨[false], 0⟩ := by
  refine ⟨rfl, rfl, by norm_num, ?_, rfl, rfl⟩
  rfl

theorem foldl_add_mod_eq :
    ∀ (xs : List Nat) (acc : Nat), acc + xs.sum < SIZE_MOD →
      xs.foldl (fun sum fitness => (sum + fitness) % SIZE_MOD) acc = acc + xs.sum := by
  intro xs
  induction xs with
  | nil => intro acc _; simp
  | cons x rest ih =>
    intro acc h
    simp only [List.sum_cons] at h
    simp only [List.foldl_cons, List.sum_cons]
    rw [Nat.mod_eq_of_lt (by omega), ih (acc + x) (by omega)]
    omega

theorem accumulate_eq_sum (fitnesses : List Nat) (hsum : fitnesses.sum < SIZE_MOD) :
    accumulate fitnesses = fitnesses.sum := by
  have h := foldl_add_mod_eq fitnesses 0 (by simpa using hsum)
  simpa [accumulate] using h

theorem sum_take_mono (xs : List Nat) (a b : Nat) (hab : a ≤ b) :
    (xs.take a).sum ≤ (xs.take b).sum := by
  have h := sum_take_le_sum (xs.take b) a
  rwa [List.take_take, Nat.min_eq_left hab] at h

theorem sum_take_succ_getElem? (xs : List Nat) (i f : Nat) (hf : xs[i]? = some f) :
    (xs.take (i + 1)).sum = (xs.take i).sum + f := by
  rw [List.take_succ, hf]
  simp

theorem selected_index_spec (fitnesses : List Nat) (pick : Nat)
    (hsum : fitnesses.sum < SIZE_MOD) :
    selected_index fitnesses pick ≤ fitnesses.length - 1
      ∧ (∀ j, j < selected_index fitnesses pick → (fitnesses.take (j + 1)).sum ≤ pick)
      ∧ (selected_index fitnesses pick < fitnesses.length - 1 →
          pick < (fitnesses.take (selected_index fitnesses pick + 1)).sum) := by
  obtain ⟨_, h2, h3, h4⟩ := find_if_pick_spec pick fitnesses.dropLast 0 0
  simp only [List.length_dropLast, Nat.zero_add, Nat.sub_zero] at h2 h3 h4
  have hplain : ∀ m, (fitnesses.take m).sum % SIZE_MOD = (fitnesses.take m).sum := by
    intro m
    apply Nat.mod_eq_of_lt
    have := sum_take_le_sum fitnesses m
    omega
  refine ⟨h2, ?_, ?_⟩
  · intro j hj
    have h := h3 j hj
    rw [take_dropLast fitnesses (j + 1) (by unfold selected_index at hj; omega),
      hplain] at h
    omega
  · intro hlt
    have h := h4 hlt
    rwa [take_dropLast fitnesses _ (by unfold selected_index at hlt; omega), hplain] at h

theorem selected_index_eq_iff (fitnesses : List Nat) (pick i : Nat)
    (hsum : fitnesses.sum < SIZE_MOD) (hi : i < fitnesses.length - 1) :
    selected_index fitnesses pick = i
      ↔ (fitnesses.take i).sum ≤ pick ∧ pick < (fitnesses.take (i + 1)).sum := by
  obtain ⟨_, hbelow, hfound⟩ := selected_index_spec fitnesses pick hsum
  constructor
  · intro hr
    rw [hr] at hbelow hfound
    refine ⟨?_, hfound hi⟩
    cases i with
    | zero => simp
    | succ m => exact hbelow m (Nat.lt_succ_self m)
  · rintro ⟨hlo, hhi⟩
    rcases Nat.lt_trichotomy (selected_index fitnesses pick) i with hlt | heq | hgt
    · have h1 := hfound (by omega)
      have h2 := sum_take_mono fitnesses (selected_index fitnesses pick + 1) i (by omega)
      omega
    · exact heq
    · have := hbelow i hgt
      omega

theorem selected_index_eq_last_iff (fitnesses : List Nat) (pick : Nat)
    (hsum : fitnesses.sum < SIZE_MOD) :
    selected_index fitnesses pick = fitnesses.length - 1
      ↔ (fitnesses.take (fitnesses.length - 1)).sum ≤ pick := by
  obtain ⟨hle, hbelow, hfound⟩ := selected_index_spec fitnesses pick hsum
  constructor
  · intro hr
    rw [hr] at hbelow
    cases hn : fitnesses.length - 1 with
    | zero => simp
    | succ m => exact hbelow m (by omega)
  · intro hlo
    by_contra hne
    have hlt : selected_index fitnesses pick < fitnesses.length - 1 := by omega
    have h1 := hfound hlt
    have h2 := sum_take_mono fitnesses (selected_index fitnesses pick + 1)
      (fitnesses.length - 1) (by omega)
    omega

theorem count_range_between (a b : Nat) (hab : a ≤ b) :
    ∀ (m : Nat), ((List.range m).filter (fun d => decide (a ≤ d ∧ d < b))).length
      = min b m - min a m := by
  intro m
  induction m with
  | zero => simp
  | succ n ih =>
    rw [List.range_succ, List.filter_append, List.length_append, ih]
    by_cases h : a ≤ n ∧ n < b
    · have hd : decide (a ≤ n ∧ n < b) = true := decide_eq_true h
      simp only [List.filter_cons, List.filter_nil, hd, if_true, List.length_singleton]
      omega
    · have hd : decide (a ≤ n ∧ n < b) = false := decide_eq_false h
      simp only [List.filter_cons, List.filter_nil, hd, Bool.false_eq_true, if_false,
        List.length_nil]
      omega

/-- C19, as the source behaves.  For a non-empty fitness vector `f` of
length `n` whose sum is less than `2 ^ 64`, `fitnessSum` is that sum and,
among the `fitnessSum + 1` draws of the closed range `[0, fitnessSum]`,
exactly `f[i]` make `select` pick index `i` for every `i < n - 1` and exactly
`f[n - 1] + 1` make it pick the last index; a zero-fitness chromosome that is
not last is selected by no draw, and the draw `fitnessSum` selects the last
one. -/
theorem roulette_weights (fitnesses : List Nat) (hne : fitnesses ≠ [])
    (hsum : fitnesses.sum < SIZE_MOD) :
    accumulate fitnesses = fitnesses.sum
      ∧ (∀ (population : population_t) (pick : Nat),
          select_pick population fitnesses pick
            = population[selected_index fitnesses pick]?)
      ∧ (∀ (i f : Nat), i < fitnesses.length - 1 → fitnesses[i]? = some f →
          draws_selecting fitnesses i = f)
      ∧ (∀ f : Nat, fitnesses[fitnesses.length - 1]? = some f →
          draws_selecting fitnesses (fitnesses.length - 1) = f + 1)
      ∧ (∀ (i pick : Nat), i < fitnesses.length - 1 → fitnesses[i]? = some 0 →
          selected_index fitnesses pick ≠ i)
      ∧ selected_index fitnesses (accumulate fitnesses) = fitnesses.length - 1 := by
  have hacc := accumulate_eq_sum fitnesses hsum
  have hpos : 0 < fitnesses.length := List.length_pos.mpr hne
  refine ⟨hacc, ?_, ?_, ?_, ?_, ?_⟩
  · intro population pick
    exact select_pick_eq_getElem? population fitnesses pick hne
  · intro i f hi hf
    have hsucc := sum_take_succ_getElem? fitnesses i f hf
    have hle := sum_take_le_sum fitnesses (i + 1)
    have hcongr : (List.range (accumulate fitnesses + 1)).filter
          (fun pick => decide (selected_index fitnesses pick = i))
        = (List.range (accumulate fitnesses + 1)).filter
          (fun d => decide ((fitnesses.take i).sum ≤ d
            ∧ d < (fitnesses.take (i + 1)).sum)) := by
      apply List.filter_congr
      intro d _
      exact decide_eq_decide.mpr (selected_index_eq_iff fitnesses d i hsum hi)
    unfold draws_selecting
    rw [hcongr, count_range_between _ _ (by omega), hacc]
    omega
  · intro f hf
    have hsucc := sum_take_succ_getElem? fitnesses (fitnesses.length - 1) f hf
    have hfull : fitnesses.take (fitnesses.length - 1 + 1) = fitnesses := by
      rw [Nat.sub_add_cancel hpos, List.take_length]
    rw [hfull] at hsucc
    have hcongr : (List.range (accumulate fitnesses + 1)).filter
          (fun pick => decide (selected_index fitnesses pick = fitnesses.length - 1))
        = (List.range (accumulate fitnesses + 1)).filter
          (fun d => decide ((fitnesses.take (fitnesses.length - 1)).sum ≤ d
            ∧ d < accumulate fitnesses + 1)) := by
      apply List.filter_congr
      intro d hd
      apply decide_eq_decide.mpr
      rw [selected_index_eq_last_iff fitnesses d hsum]
      have := List.mem_range.mp hd
      constructor
      · intro h; exact ⟨h, this⟩
      · intro h; exact h.1
    unfold draws_selecting
    rw [hcongr, count_range_between _ _ (by rw [hacc]; omega), hacc]
    omega
  · intro i pick hi hf hsel
    have hsucc := sum_take_succ_getElem? fitnesses i 0 hf
    have := (selected_index_eq_iff fitnesses pick i hsum hi).mp hsel
    omega
  · rw [selected_index_eq_last_iff fitnesses _ hsum, hacc]
    exact sum_take_le_sum fitnesses _

/-- Witness of `roulette_weights` on the fitnesses 3, 0, 2, 1. -/
theorem roulette_weights_witness :
    ([3, 0, 2, 1] : List Nat) ≠ [] ∧ ([3, 0, 2, 1] : List Nat).sum < SIZE_MOD
      ∧ (accumulate [3, 0, 2, 1] = ([3, 0, 2, 1] : List Nat).sum
        ∧ (∀ (population : population_t) (pick : Nat),
            select_pick population [3, 0, 2, 1] pick
              = population[selected_index [3, 0, 2, 1] pick]?)
        ∧ (∀ (i f : Nat), i < ([3, 0, 2, 1] : List Nat).length - 1 →
            ([3, 0, 2, 1] : List Nat)[i]? = some f → draws_selecting [3, 0, 2, 1] i = f)
        ∧ (∀ f : Nat,
            ([3, 0, 2, 1] : List Nat)[([3, 0, 2, 1] : List Nat).length - 1]? = some f →
            draws_selecting [3, 0, 2, 1] (([3, 0, 2, 1] : List Nat).length - 1) = f + 1)
        ∧ (∀ (i pick : Nat), i < ([3, 0, 2, 1] : List Nat).length - 1 →
            ([3, 0, 2, 1] : List Nat)[i]? = some 0 → selected_index [3, 0, 2, 1] pick ≠ i)
        ∧ selected_index [3, 0, 2, 1] (accumulate [3, 0, 2, 1])
            = ([3, 0, 2, 1] : List Nat).length - 1) :=
  ⟨by decide, by decide, roulette_weights [3, 0, 2, 1] (by decide) (by decide)⟩

/-- C19 as stated fails on the source: with the fitnesses
`2 ^ 64 - 1, 1, 5` the `size_t` sum wraps to 5, so there are 6 possible draws;
every one of them is below the first offset `2 ^ 64 - 1` and picks index 0, so
index 0 is picked by 6 draws instead of `2 ^ 64 - 1`, index 1 by none instead
of 1, and the last index by none instead of 6. -/
theorem roulette_overflow_counterexample :
    ([2 ^ 64 - 1, 1, 5] : List Nat) ≠ []
      ∧ accumulate [2 ^ 64 - 1, 1, 5] = 5
      ∧ draws_selecting [2 ^ 64 - 1, 1, 5] 0 = 6
      ∧ draws_selecting [2 ^ 64 - 1, 1, 5] 0 ≠ 2 ^ 64 - 1
      ∧ draws_selecting [2 ^ 64 - 1, 1, 5] 1 = 0
      ∧ draws_selecting [2 ^ 64 - 1, 1, 5] 2 = 0
      ∧ draws_selecting [2 ^ 64 - 1, 1, 5] 2 ≠ 5 + 1 := by
  refine ⟨by decide, by decide, by decide, by decide, by decide, by decide, by decide⟩

end Knapsack
